import Mathlib

/-!
Verification of the pegen C parser generator (src/pegen/c_generator.py and
src/pegen/parser_generator.py) against its natural-language specification.

The grammar IR (`grammar.py`), the SCC utilities (`sccutils.py`) and the
tokenizer table (`tokenizer.py`) are repository modules that are not present
under src/; definitions that embed them are modelled from the spec and are
marked as such in their doc comments.  Everything else is a direct shallow
embedding of the Python source: the stateful generator object becomes explicit
state passing, Python exceptions (assertions, KeyError, IndexError,
ValueError) become `Except String`, and the text written to the output file
becomes a list of strings, one entry per `print` call.
-/

namespace Pegen

/-! ## Grammar IR (modelled from the spec, §3: grammar.py is not in src)

`Cut` is represented as `NameLeaf "CUT"`: the C generator handles the cut
marker through `visit_NameLeaf`, whose token-class table contains `CUT`,
and §3 lists `CUT` among the known token classes. -/

mutual

/-- Item variants of the grammar IR (spec §3). -/
inductive Item where
  | nameLeaf (s : String) : Item
  | stringLeaf (s : String) : Item
  | group (r : Rhs) : Item
  | opt (x : Item) : Item
  | repeat0 (x : Item) : Item
  | repeat1 (x : Item) : Item
  | posLookahead (x : Item) : Item
  | negLookahead (x : Item) : Item

/-- An ordered list of alternatives (spec §3). -/
inductive Rhs where
  | mk (alts : List Alt) : Rhs

/-- An ordered list of named items plus an optional brace-delimited action
string (spec §3); the stored action text includes its braces, as required by
the assertion in `CParserGenerator.visit_Alt`. -/
inductive Alt where
  | mk (items : List NamedItem) (action : Option String) : Alt

/-- A pair of an optional bind name and an item (spec §3). -/
inductive NamedItem where
  | mk (name : Option String) (item : Item) : NamedItem

end

def Rhs.alts : Rhs → List Alt
  | .mk a => a

def Alt.items : Alt → List NamedItem
  | .mk i _ => i

def Alt.action : Alt → Option String
  | .mk _ a => a

def NamedItem.name : NamedItem → Option String
  | .mk n _ => n

def NamedItem.item : NamedItem → Item
  | .mk _ i => i

mutual

/-- Structural equality on items (used for the planner cache, which Python
keys by node object; structural keying is the nearest shallow analogue). -/
def beqItem : Item → Item → Bool
  | .nameLeaf a, .nameLeaf b => a == b
  | .stringLeaf a, .stringLeaf b => a == b
  | .group a, .group b => beqRhs a b
  | .opt a, .opt b => beqItem a b
  | .repeat0 a, .repeat0 b => beqItem a b
  | .repeat1 a, .repeat1 b => beqItem a b
  | .posLookahead a, .posLookahead b => beqItem a b
  | .negLookahead a, .negLookahead b => beqItem a b
  | _, _ => false

def beqRhs : Rhs → Rhs → Bool
  | .mk a, .mk b => beqAltList a b

def beqAltList : List Alt → List Alt → Bool
  | [], [] => true
  | a :: as, b :: bs => beqAlt a b && beqAltList as bs
  | _, _ => false

def beqAlt : Alt → Alt → Bool
  | .mk ia aa, .mk ib ab => beqNamedItemList ia ib && aa == ab

def beqNamedItemList : List NamedItem → List NamedItem → Bool
  | [], [] => true
  | a :: as, b :: bs => beqNamedItem a b && beqNamedItemList as bs
  | _, _ => false

def beqNamedItem : NamedItem → NamedItem → Bool
  | .mk na ia, .mk nb ib => na == nb && beqItem ia ib

end

/-- A rule of the grammar (spec §3); the derived flags default to false and
are set by the analyses. -/
structure Rule where
  name : String
  type : Option String
  rhs : Rhs
  nullable : Bool := false
  left_recursive : Bool := false
  leader : Bool := false

/-- `Rule.is_loop`; modelled from the spec §3: true iff the name begins with
the reserved loop rule name head (the code checks `startswith('_loop')` in
`add_var`, and `name_loop` produces names `_loop0_<n>` / `_loop1_<n>`). -/
def Rule.is_loop (r : Rule) : Bool := r.name.startsWith ("_loop")

/-- `Rule.flatten`; grammar.py is not in src and the spec (§4.4) has the
emitter read the rule's right-hand side directly, so this is modelled as the
identity on the rule's `rhs`. -/
def Rule.flatten (r : Rule) : Rhs := r.rhs

/-- Python truthiness of an optional string (`if node.name:` and similar). -/
def optTruthy : Option String → Bool
  | none => false
  | some s => !s.isEmpty

/-- Python truthiness of a string. -/
def strTruthy (s : String) : Bool := !s.isEmpty

/-- First token-class set of `CCallMakerVisitor.visit_NameLeaf`
(c_generator.py line 74). -/
def tokenTypes1 : List String := ["NAME", "NUMBER", "STRING", "CUT", "CURLY_STUFF"]

/-- Second token-class set of `CCallMakerVisitor.visit_NameLeaf`
(c_generator.py line 77). -/
def tokenTypes2 : List String := ["NEWLINE", "DEDENT", "INDENT", "ENDMARKER", "ASYNC", "AWAIT"]

/-- All token classes (spec §3). -/
def tokenClasses : List String := tokenTypes1 ++ tokenTypes2

/-- A word character in the sense of the ASCII regex `\w`. -/
def isWordChar (c : Char) : Bool := c.isAlphanum || c == '_'

/-- Full match of the pattern `[a-zA-Z_]\w*\Z` used by `visit_StringLeaf`
(c_generator.py line 84). -/
def matchesKeywordPat (s : String) : Bool :=
  match s.toList with
  | [] => false
  | c :: rest => (c.isAlpha || c == '_') && rest.all isWordChar

/-- Modelled from the spec (§3, §4.3): unquoting of a string leaf
(`ast.literal_eval` applied to a quoted literal); fails when the payload is
not a quoted string. -/
def unquote (s : String) : Except String String :=
  let cs := s.toList
  match cs with
  | [] => .error ("literal_eval failed on " ++ s)
  | c :: _ =>
    if cs.length ≥ 2 then
      if (c == '\'' || c == '"') && cs.getLast? = some c then
        .ok (String.mk (cs.drop 1).dropLast)
      else .error ("literal_eval failed on " ++ s)
    else .error ("literal_eval failed on " ++ s)

/-- Modelled from the spec (§3): the fixed table mapping punctuation
spellings to numeric token type codes (`exact_token_types` imported from
`pegen.tokenizer`, which is not in src; spellings and codes are those of
CPython 3.8's `token.EXACT_TOKEN_TYPES`). -/
def exact_token_types : List (String × Nat) :=
  [("!=", 28), ("%", 24), ("%=", 40), ("&", 19), ("&=", 41),
   ("(", 7), (")", 8), ("*", 16), ("**", 35), ("**=", 46), ("*=", 38),
   ("+", 14), ("+=", 36), (",", 12), ("-", 15), ("-=", 37), ("->", 51),
   (".", 23), ("...", 52), ("/", 17), ("//", 47), ("//=", 48), ("/=", 39),
   (":", 11), (":=", 53), (";", 13), ("<", 20), ("<<", 33), ("<<=", 44),
   ("<=", 29), ("=", 22), ("==", 27), (">", 21), (">=", 30), (">>", 34),
   (">>=", 45), ("@", 49), ("@=", 50), ("[", 9), ("]", 10), ("^", 32),
   ("^=", 43), ("\x7b", 25), ("|", 18), ("|=", 42), ("\x7d", 26), ("~", 31)]

/-- Association lookup in the punctuation table. -/
def lookupTok (s : String) : List (String × Nat) → Option Nat
  | [] => none
  | (k, v) :: rest => if k = s then some v else lookupTok s rest

/-! ## Call-site planner (`CCallMakerVisitor`, c_generator.py lines 66-144)

The planner returns a pair `(variable name, call expression)`; the variable
name is `none` where Python returns `None` (lookaheads). -/

/-- The planner's result pair. -/
abbrev PlanResult := Option String × String

/-- Keys of the planner cache (`CCallMakerVisitor.cache`): Python keys the
one dict by node object; the cached nodes are `Rhs` nodes (from `visit_Rhs`)
and `Repeat0`/`Repeat1` items. -/
inductive CacheKey where
  | rhsK (r : Rhs) : CacheKey
  | itemK (i : Item) : CacheKey

def beqCacheKey : CacheKey → CacheKey → Bool
  | .rhsK a, .rhsK b => beqRhs a b
  | .itemK a, .itemK b => beqItem a b
  | _, _ => false

/-- The mutable state of one generation pass: the `ParserGenerator` fields
`counter` (helper numbering), `todo` (ordered work-list), `rules` (the
grammar's rule map, read-only after construction), the planner cache, and
`CParserGenerator._varname_counter`. -/
structure GState where
  counter : Nat
  todo : List Rule
  rules : List Rule
  cache : List (CacheKey × PlanResult)
  varCounter : Nat

def lookupCache (k : CacheKey) : List (CacheKey × PlanResult) → Option PlanResult
  | [] => none
  | (k', v) :: rest => if beqCacheKey k k' then some v else lookupCache k rest

def addCache (k : CacheKey) (v : PlanResult) (st : GState) : GState :=
  { st with cache := st.cache ++ [(k, v)] }

/-- Find a rule by name in an ordered rule list (Python dict lookup). -/
def findRule (rules : List Rule) (n : String) : Option Rule :=
  rules.find? (fun r => r.name = n)

/-- `ParserGenerator.name_node` (parser_generator.py lines 150-154):
allocate a fresh helper rule `_tmp_<n>` with the given body and append it to
the work-list. -/
def name_node (rhs : Rhs) (st : GState) : String × GState :=
  let c := st.counter + 1
  let nm := "_tmp_" ++ toString c
  (nm, { st with counter := c, todo := st.todo ++ [{ name := nm, type := none, rhs := rhs }] })

/-- `ParserGenerator.name_loop` (parser_generator.py lines 156-164):
allocate a fresh loop helper rule `_loop0_<n>` / `_loop1_<n>` whose single
alternative holds the repeated item. -/
def name_loop (node : Item) (is_repeat1 : Bool) (st : GState) : String × GState :=
  let c := st.counter + 1
  let nm := (if is_repeat1 then "_loop1_" else "_loop0_") ++ toString c
  (nm, { st with
           counter := c,
           todo := st.todo ++ [{ name := nm, type := none,
                                 rhs := Rhs.mk [Alt.mk [NamedItem.mk none node] none] }] })

/-- `CCallMakerVisitor.visit_NameLeaf` (c_generator.py lines 72-80). -/
def visit_NameLeaf (nm : String) : PlanResult :=
  if nm ∈ tokenTypes1 then
    let l := nm.toLower
    (some (l ++ "_var"), l ++ "_token(p)")
  else if nm ∈ tokenTypes2 then
    let l := nm.toLower
    (some (l ++ "_var"), l ++ "_token(p)")
  else
    (some (nm ++ "_var"), nm ++ "_rule(p)")

/-- `CCallMakerVisitor.visit_StringLeaf` (c_generator.py lines 82-89):
unquote, classify as keyword or punctuation, fail on unknown punctuation
(the `assert` raises `AssertionError`). -/
def visit_StringLeaf (v : String) : Except String PlanResult := do
  let val ← unquote v
  if matchesKeywordPat val then
    .ok (some "keyword", "keyword_token(p, \"" ++ val ++ "\")")
  else
    match lookupTok val exact_token_types with
    | some ty => .ok (some "literal", "expect_token(p, " ++ toString ty ++ ")")
    | none => .error (v ++ " is not a known literal")

/-- Split a character list at the first opening parenthesis
(Python `call.split('(', 1)`); `none` when there is no parenthesis, in which
case the Python two-target unpacking raises `ValueError`. -/
def splitAtLParen : List Char → Option (List Char × List Char)
  | [] => none
  | c :: rest =>
    if c = '(' then some ([], rest)
    else
      match splitAtLParen rest with
      | none => none
      | some (a, b) => some (c :: a, b)

/-- Python `str.strip`: drop whitespace from both ends. -/
def stripWs (l : List Char) : List Char :=
  ((l.dropWhile Char.isWhitespace).reverse.dropWhile Char.isWhitespace).reverse

/-- Python `str.isalnum` (ASCII model): nonempty and all alphanumeric. -/
def isAlnumStr (l : List Char) : Bool := !l.isEmpty && l.all Char.isAlphanum

/-- The pure tail of `CCallMakerVisitor.lookahead_call_helper`
(c_generator.py lines 107-117) applied to the inner item's planned call
text: split at the first `(`, assert the text ends with `)`, then choose the
wrapper variant by the argument shape. -/
def lookahead_result (positive : Nat) (call : String) : Except String PlanResult :=
  match splitAtLParen call.toList with
  | none => .error "ValueError: not enough values to unpack (expected 2)"
  | some (funcCs, argCs) =>
    match argCs.getLast? with
    | none => .error "IndexError: string index out of range"
    | some last =>
      if last = ')' then
        let func := String.mk funcCs
        let args := String.mk argCs.dropLast
        if !(args.startsWith ("p,")) then
          .ok (none, "lookahead(" ++ toString positive ++ ", " ++ func ++ ", " ++ args ++ ")")
        else if isAlnumStr (stripWs (argCs.dropLast.drop 2)) then
          .ok (none, "lookahead_with_int(" ++ toString positive ++ ", " ++ func ++ ", " ++ args ++ ")")
        else
          .ok (none, "lookahead_with_string(" ++ toString positive ++ ", " ++ func ++ ", " ++ args ++ ")")
      else .error "AssertionError: args[-1] == ')'"

mutual

/-- Dispatch of `CCallMakerVisitor.visit` over item variants
(c_generator.py lines 72-144). -/
def visitItem : Item → GState → Except String (PlanResult × GState)
  | .nameLeaf s, st => .ok (visit_NameLeaf s, st)
  | .stringLeaf s, st => do
      let pr ← visit_StringLeaf s
      .ok (pr, st)
  | .group r, st => visitRhs r st
  | .opt x, st => do
      let ((_, call), st') ← visitItem x st
      .ok ((some "opt_var", call ++ ", 1"), st')
  | .repeat0 x, st =>
      match lookupCache (.itemK (.repeat0 x)) st.cache with
      | some pr => .ok (pr, st)
      | none =>
        let (nm, st') := name_loop x false st
        let pr : PlanResult := (some (nm ++ "_var"), nm ++ "_rule(p)")
        .ok (pr, addCache (.itemK (.repeat0 x)) pr st')
  | .repeat1 x, st =>
      match lookupCache (.itemK (.repeat1 x)) st.cache with
      | some pr => .ok (pr, st)
      | none =>
        let (nm, st') := name_loop x true st
        let pr : PlanResult := (some (nm ++ "_var"), nm ++ "_rule(p)")
        .ok (pr, addCache (.itemK (.repeat1 x)) pr st')
  | .posLookahead x, st => do
      let ((_, call), st') ← visitItem x st
      let pr ← lookahead_result 1 call
      .ok (pr, st')
  | .negLookahead x, st => do
      let ((_, call), st') ← visitItem x st
      let pr ← lookahead_result 0 call
      .ok (pr, st')

/-- `CCallMakerVisitor.visit_Rhs` (c_generator.py lines 91-99): cached; a
right-hand side of exactly one alternative with exactly one item delegates
to that item, anything else allocates a `_tmp_<n>` helper rule.  (The
Python method performs its cache lookup once before distinguishing the two
shapes; the check is textually repeated per shape here so the recursion
stays structural, with identical behaviour.) -/
def visitRhs : Rhs → GState → Except String (PlanResult × GState)
  | .mk [Alt.mk [ni] act], st =>
    match lookupCache (.rhsK (.mk [Alt.mk [ni] act])) st.cache with
    | some pr => .ok (pr, st)
    | none => do
        let (pr, st') ← visitNamedItem ni st
        .ok (pr, addCache (.rhsK (.mk [Alt.mk [ni] act])) pr st')
  | other, st =>
    match lookupCache (.rhsK other) st.cache with
    | some pr => .ok (pr, st)
    | none =>
      let (nm, st') := name_node other st
      let pr : PlanResult := (some (nm ++ "_var"), nm ++ "_rule(p)")
      .ok (pr, addCache (.rhsK other) pr st')

/-- `CCallMakerVisitor.visit_NamedItem` (c_generator.py lines 101-105): an
explicit (truthy) bind name overrides the default variable name. -/
def visitNamedItem : NamedItem → GState → Except String (PlanResult × GState)
  | .mk nm it, st => do
      let ((n, call), st') ← visitItem it st
      .ok ((if optTruthy nm then nm else n, call), st')

end

/-! ## Rendering of IR nodes (display only)

The emitter writes `// {node}` comment lines via the nodes' `__str__`
methods, which live in the absent grammar.py; the rendering below is a
display model only — no claim depends on its exact text. -/

mutual

def renderItem : Item → String
  | .nameLeaf s => s
  | .stringLeaf s => s
  | .group r => "(" ++ renderRhs r ++ ")"
  | .opt x => renderItem x ++ "?"
  | .repeat0 x => renderItem x ++ "*"
  | .repeat1 x => renderItem x ++ "+"
  | .posLookahead x => "&" ++ renderItem x
  | .negLookahead x => "!" ++ renderItem x

def renderRhs : Rhs → String
  | .mk alts => String.intercalate " | " (renderAltList alts)

def renderAltList : List Alt → List String
  | [] => []
  | a :: as => renderAlt a :: renderAltList as

def renderAlt : Alt → String
  | .mk items act =>
    String.intercalate " " (renderNamedItemList items)
      ++ (match act with | some a => " " ++ a | none => "")

def renderNamedItemList : List NamedItem → List String
  | [] => []
  | n :: ns => renderNamedItem n :: renderNamedItemList ns

def renderNamedItem : NamedItem → String
  | .mk (some n) it => if n.isEmpty then renderItem it else n ++ "=" ++ renderItem it
  | .mk none it => renderItem it

end

def renderRule (r : Rule) : String :=
  r.name ++ (match r.type with | some t => "[" ++ t ++ "]" | none => "")
    ++ ": " ++ renderRhs r.rhs

/-! ## Emitter (`CParserGenerator`, c_generator.py lines 147-397)

Each Python `self.print(text)` call becomes one list entry holding the
current indentation (four spaces per level) followed by the text. -/

/-- One printed line at the given indentation level. -/
def ind (lvl : Nat) (s : String) : String :=
  String.join (List.replicate lvl "    ") ++ s

/-- Python `str(x)` where `x` is an optional string (used for the realloc
error message, where `rulename` may be `None`). -/
def pyOptStr : Option String → String
  | some s => s
  | none => "None"

/-- Candidate variable name number `k` for de-duplication. -/
def dedupeCand (orig : String) : Nat → String
  | 0 => orig
  | k + 1 => orig ++ "_" ++ toString (k + 1)

/-- First candidate index whose name is not yet taken (bounded search). -/
def dedupeIdx (orig : String) (names : List String) : Nat → Nat → Nat
  | k, 0 => k
  | k, fuel + 1 => if dedupeCand orig k ∈ names then dedupeIdx orig names (k + 1) fuel else k

/-- Modelled from the spec (§4.3): `dedupe` (imported by c_generator.py from
parser_generator.py but not present in the src copy) de-duplicates a
variable name within an alternative by appending a numeric suffix on
collision, and records the chosen name in the running name list.  The search
is bounded by `names.length + 1` candidates, which always suffices because
the candidates are pairwise distinct. -/
def dedupe (orig : String) (names : List String) : String × List String :=
  let nm := dedupeCand orig (dedupeIdx orig names 0 (names.length + 1))
  (nm, names ++ [nm])

/-- Python dict assignment `d[k] = v`: replace in place or append. -/
def dictUpdate (k : Option String) (v : Option String) :
    List (Option String × Option String) → List (Option String × Option String)
  | [] => [(k, v)]
  | (k', v') :: rest => if k' = k then (k, v) :: rest else (k', v') :: dictUpdate k v rest

/-- `CParserGenerator.add_var` (c_generator.py lines 374-396). -/
def add_var (ni : NamedItem) (names : List String) (st : GState) :
    Except String ((Option String × Option String) × List String × GState) := do
  let ((name?, _call), st') ← visitItem ni.item st
  if !(optTruthy name?) then
    .ok ((name?, none), names, st')
  else
    let n := name?.getD ""
    if n.startsWith ("cut") then
      .ok ((some n, some "int"), names, st')
    else
      let ty : Option String :=
        if n.endsWith ("_var") then
          let rulename := n.dropRight 4
          match findRule st'.rules rulename with
          | some rule => if rule.is_loop then some "asdl_seq *" else rule.type
          | none => if n.startsWith ("_loop") then some "asdl_seq *" else none
        else none
      let n₁ := if optTruthy ni.name then ni.name.getD "" else n
      let (n₂, names') := dedupe n₁ names
      .ok ((some n₂, ty), names', st')

/-- Inner loop of `CParserGenerator.collect_vars` (c_generator.py lines
366-372): visit each item, recording its variable name and type. -/
def collect_vars_go : List NamedItem → List String →
    List (Option String × Option String) → GState →
    Except String (List (Option String × Option String) × GState)
  | [], _, types, st => .ok (types, st)
  | ni :: rest, names, types, st => do
      let ((n?, ty), names', st') ← add_var ni names st
      collect_vars_go rest names' (dictUpdate n? ty types) st'

/-- `CParserGenerator.collect_vars`. -/
def collect_vars (alt : Alt) (st : GState) :
    Except String (List (Option String × Option String) × GState) :=
  collect_vars_go alt.items [] [] st

/-- The `vars.update(self.collect_vars(alt))` fold of the emitter's
`visit_Rhs` (c_generator.py lines 311-313). -/
def collectVarsAll : List Alt → List (Option String × Option String) → GState →
    Except String (List (Option String × Option String) × GState)
  | [], acc, st => .ok (acc, st)
  | a :: as, acc, st => do
      let (tys, st') ← collect_vars a st
      collectVarsAll as (tys.foldl (fun d p => dictUpdate p.1 p.2 d) acc) st'

/-- Insertion into a name-sorted pair list. -/
def insertPair (p : String × Option String) :
    List (String × Option String) → List (String × Option String)
  | [] => [p]
  | q :: rest => if p.1 ≤ q.1 then p :: q :: rest else q :: insertPair p rest

/-- Python's `sorted` over the `(name, type)` pairs (names are unique dict
keys, so comparison never reaches the second component). -/
def sortPairs : List (String × Option String) → List (String × Option String)
  | [] => []
  | p :: rest => insertPair p (sortPairs rest)

/-- The variable declaration lines of the emitter's `visit_Rhs`
(c_generator.py lines 314-319). -/
def declLines (lvl : Nat) (vars : List (Option String × Option String)) : List String :=
  (sortPairs (vars.filterMap
      (fun p => match p.1 with | some n => some (n, p.2) | none => none))).map
    (fun q => ind lvl ((if optTruthy q.2 then q.2.getD "" ++ " " else "void *") ++ q.1 ++ ";"))

/-- `CParserGenerator.out_of_memory_return` (c_generator.py lines 175-180). -/
def oomReturn (lvl : Nat) (expr ret msg : String) : List String :=
  [ind lvl ("if (" ++ expr ++ ") \x7b"),
   ind (lvl + 1) ("PyErr_Format(PyExc_MemoryError, \"" ++ msg ++ "\");"),
   ind (lvl + 1) ("return " ++ ret ++ ";"),
   ind lvl "\x7d"]

/-- The emitter's `visit_NamedItem` (c_generator.py lines 299-306): print the
planned call, assigning it to the de-duplicated variable name when there is
one. -/
def emit_NamedItem (ni : NamedItem) (names : List String) (lvl : Nat) (st : GState) :
    Except String (List String × List String × GState) := do
  let ((name?, call), st') ← visitNamedItem ni st
  if !(optTruthy name?) then
    .ok ([ind lvl call], names, st')
  else
    let n := name?.getD ""
    if n ≠ "cut" then
      let (n', names') := dedupe n names
      .ok ([ind lvl ("(" ++ n' ++ " = " ++ call ++ ")")], names', st')
    else
      .ok ([ind lvl ("(" ++ n ++ " = " ++ call ++ ")")], names, st')

/-- The item-sequencing loop of the emitter's `visit_Alt` (c_generator.py
lines 331-337): items joined by `&&` lines. -/
def emit_Alt_items : List NamedItem → Bool → List String → Nat → GState →
    Except String (List String × List String × GState)
  | [], _, names, _, st => .ok ([], names, st)
  | ni :: rest, first, names, lvl, st => do
      let (l₁, names₁, st₁) ← emit_NamedItem ni names lvl st
      let (l₂, names₂, st₂) ← emit_Alt_items rest false names₁ lvl st₁
      .ok ((if first then l₁ else ind lvl "&&" :: l₁) ++ l₂, names₂, st₂)

/-- The success-action lines of the emitter's `visit_Alt` (c_generator.py
lines 340-351): the default action indexes `names[0]` (an out-of-bounds
index when no variable was bound raises `IndexError`), and an explicit
action must be brace-delimited. -/
def altResLines (action : Option String) (names : List String) (lvl : Nat) :
    Except String (List String) :=
  if !(optTruthy action) then
    if names.length > 1 then
      .ok [ind lvl ("res = CONSTRUCTOR(p, " ++ String.intercalate ", " names ++ ");")]
    else
      match names with
      | n :: _ => .ok [ind lvl ("res = " ++ n ++ ";")]
      | [] => .error "IndexError: list index out of range"
  else
    let a := (action.getD "").toList
    if a.head? = some '\x7b' && a.getLast? = some '\x7d' then
      .ok [ind lvl ("res = " ++ String.mk (stripWs (a.drop 1).dropLast) ++ ";")]
    else
      .error "AssertionError: action is not brace-delimited"

/-- The emitter's `visit_Alt` (c_generator.py lines 323-364). -/
def emit_Alt (alt : Alt) (is_loop : Bool) (rulename : Option String) (lvl : Nat) (st : GState) :
    Except String (List String × GState) := do
  let (condL, names, st₁) ← emit_Alt_items alt.items true [] (lvl + 1) st
  let resL ← altResLines alt.action names (lvl + 1)
  let tailL :=
    if is_loop then
      [ind (lvl + 1) "children = PyMem_Realloc(children, (n+1)*sizeof(void *));"]
      ++ oomReturn (lvl + 1) "!children" "NULL" ("realloc " ++ pyOptStr rulename)
      ++ [ind (lvl + 1) "children[n++] = res;", ind (lvl + 1) "mark = p->mark;"]
    else
      (if optTruthy rulename then
        [ind (lvl + 1) ("insert_memo(p, mark, " ++ pyOptStr rulename ++ "_type, res);")]
       else [])
      ++ [ind (lvl + 1) "goto done;"]
  .ok ([ind lvl ("// " ++ renderAlt alt), ind lvl (if is_loop then "while (" else "if (")]
       ++ condL ++ [ind lvl ") \x7b"] ++ resL ++ tailL
       ++ [ind lvl "\x7d", ind lvl "p->mark = mark;"]
       ++ (if "cut_var" ∈ names then [ind lvl "if (cut_var) return NULL;"] else []),
      st₁)

/-- The per-alternative fold of the emitter's `visit_Rhs` (c_generator.py
lines 320-321). -/
def emit_Alts : List Alt → Bool → Option String → Nat → GState →
    Except String (List String × GState)
  | [], _, _, _, st => .ok ([], st)
  | a :: as, is_loop, rulename, lvl, st => do
      let (l₁, st₁) ← emit_Alt a is_loop rulename lvl st
      let (l₂, st₂) ← emit_Alts as is_loop rulename lvl st₁
      .ok (l₁ ++ l₂, st₂)

/-- The emitter's `visit_Rhs` (c_generator.py lines 308-321): loop rules
must hold exactly one alternative (assertion), then variable declarations
followed by the alternatives. -/
def emit_Rhs (rhs : Rhs) (is_loop : Bool) (rulename : Option String) (lvl : Nat) (st : GState) :
    Except String (List String × GState) :=
  if is_loop && rhs.alts.length ≠ 1 then
    .error "AssertionError: len(node.alts) == 1"
  else do
    let (vars, st₁) ← collectVarsAll rhs.alts [] st
    let (altL, st₂) ← emit_Alts rhs.alts is_loop rulename lvl st₁
    .ok (declLines lvl vars ++ altL, st₂)

/-- The seed-growing outer function body emitted for a left-recursive rule
(`CParserGenerator.visit_Rule`, c_generator.py lines 231-254): return the
memoized result if present, then repeatedly write the current result into
the memo at the saved starting mark, rewind, call `_raw`, and stop as soon
as the raw result is absent or position did not improve on the best
(`resmark`); finally rewind to the best position and return the result.
`n` is the `_varname_counter` value used for the error-check temporary. -/
def seedGrowLines (name ty : String) (n : Nat) : List String :=
  [ind 0 "\x7b",
   ind 1 (ty ++ " res = NULL;"),
   ind 1 ("if (is_memoized(p, " ++ name ++ "_type, &res))"),
   ind 2 "return res;",
   ind 1 "int mark = p->mark;",
   ind 1 "int resmark = p->mark;",
   ind 1 "while (1) \x7b",
   ind 2 ("int tmpvar_" ++ toString n ++ " = update_memo(p, mark, " ++ name ++ "_type, res);"),
   ind 2 ("if (tmpvar_" ++ toString n ++ ") \x7b"),
   ind 3 "return res;",
   ind 2 "\x7d",
   ind 2 "p->mark = mark;",
   ind 2 ("void *raw = " ++ name ++ "_raw(p);"),
   ind 2 "if (raw == NULL || p->mark <= resmark)",
   ind 3 "break;",
   ind 2 "resmark = p->mark;",
   ind 2 "res = raw;",
   ind 1 "\x7d",
   ind 1 "p->mark = resmark;",
   ind 1 "return res;",
   ind 0 "\x7d"]

/-- The function body shared by all rules (`CParserGenerator.visit_Rule`,
c_generator.py lines 258-297): result slot, optional memo guard, saved
mark, loop-rule child buffer, the right-hand side, then either the loop
epilogue (zero-iteration failure for `_loop1`, sequence freezing,
`insert_memo` on the `mark` variable, return) or the failure fall-through
and the shared `done:` exit label. -/
def ruleBody (node : Rule) (is_loop is_repeat1 memoize : Bool) (ty : String) (rhs : Rhs)
    (st : GState) : Except String (List String × GState) := do
  let (rhsL, st') ← emit_Rhs rhs is_loop (if memoize then some node.name else none) 1 st
  .ok ([ind 0 "\x7b"]
    ++ [ind 1 (if is_loop then "void *res = NULL;" else ty ++ " res = NULL;")]
    ++ (if memoize then
          [ind 1 ("if (is_memoized(p, " ++ node.name ++ "_type, &res))"), ind 2 "return res;"]
        else [])
    ++ [ind 1 "int mark = p->mark;"]
    ++ (if is_loop then
          [ind 1 "void **children = PyMem_Malloc(0);"]
          ++ oomReturn 1 "!children" "NULL" "Parser out of memory"
          ++ [ind 1 "ssize_t n = 0;"]
        else [])
    ++ rhsL
    ++ (if is_loop then
          (if is_repeat1 then
            [ind 1 "if (n == 0) \x7b", ind 2 "PyMem_Free(children);",
             ind 2 "return NULL;", ind 1 "\x7d"]
           else [])
          ++ [ind 1 "asdl_seq *seq = _Py_asdl_seq_new(n, p->arena);"]
          ++ oomReturn 1 "!seq" "NULL" ("asdl_seq_new " ++ node.name)
          ++ [ind 1 "for (int i = 0; i < n; i++) asdl_seq_SET(seq, i, children[i]);",
              ind 1 "PyMem_Free(children);"]
          ++ (if strTruthy node.name then
                [ind 1 ("insert_memo(p, mark, " ++ node.name ++ "_type, seq);")]
              else [])
          ++ [ind 1 "return seq;"]
        else [ind 1 "res = NULL;"])
    ++ (if !is_loop then
          [ind 0 "  done:"]
          ++ (if memoize then
                [ind 1 ("insert_memo(p, mark, " ++ node.name ++ "_type, res);")]
              else [])
          ++ [ind 1 "return res;"]
        else [])
    ++ [ind 0 "\x7d"], st')

/-- `CParserGenerator.visit_Rule` (c_generator.py lines 212-297). -/
def visit_Rule (node : Rule) (st : GState) : Except String (List String × GState) :=
  let is_loop := node.is_loop
  let is_repeat1 := node.name.startsWith ("_loop1")
  let memoize := !node.leader
  let rhs := node.flatten
  let ty := if is_loop then "asdl_seq *"
            else if optTruthy node.type then node.type.getD ""
            else "void *"
  let head := [ind 0 ("// " ++ renderRule node)]
    ++ (if node.left_recursive then
          [ind 0 ("static " ++ ty ++ " " ++ node.name ++ "_raw(Parser *);")]
        else [])
    ++ [ind 0 ("static " ++ ty), ind 0 (node.name ++ "_rule(Parser *p)")]
  if node.left_recursive then do
    let seed := seedGrowLines node.name ty st.varCounter
    let st₁ := { st with varCounter := st.varCounter + 1 }
    let (body, st₂) ← ruleBody node is_loop is_repeat1 memoize ty rhs st₁
    .ok (head ++ seed
         ++ [ind 0 ("static " ++ ty), ind 0 (node.name ++ "_raw(Parser *p)")]
         ++ body, st₂)
  else do
    let (body, st₂) ← ruleBody node is_loop is_repeat1 memoize ty rhs st
    .ok (head ++ body, st₂)

/-! ## Nullability (modelled from the spec §4.1; the per-node `visit`
methods live in the absent grammar.py)

A least fixed point computed by iterating a monotone pass once more than
there are rules. -/

mutual

def itemNullable (rules : List Rule) : Item → Bool
  | .nameLeaf s =>
    if s ∈ tokenClasses then false
    else match findRule rules s with
         | some r => r.nullable
         | none => false
  | .stringLeaf _ => false
  | .group r => rhsNullable rules r
  | .opt _ => true
  | .repeat0 _ => true
  | .repeat1 x => itemNullable rules x
  | .posLookahead _ => true
  | .negLookahead _ => true

def rhsNullable (rules : List Rule) : Rhs → Bool
  | .mk alts => anyAltNullable rules alts

def anyAltNullable (rules : List Rule) : List Alt → Bool
  | [] => false
  | a :: as => altNullable rules a || anyAltNullable rules as

def altNullable (rules : List Rule) : Alt → Bool
  | .mk items _ => allItemsNullable rules items

def allItemsNullable (rules : List Rule) : List NamedItem → Bool
  | [] => true
  | .mk _ it :: rest => itemNullable rules it && allItemsNullable rules rest

end

/-- One pass of the nullability fixpoint. -/
def nullStep (rules : List Rule) : List Rule :=
  rules.map (fun r => { r with nullable := rhsNullable rules r.rhs })

/-- `compute_nullables` (parser_generator.py lines 167-173; the recursive
visit lives in the absent grammar.py and is modelled from the spec §4.1 as
a Kleene iteration, which reaches the least fixed point because flags only
ever turn true). -/
def compute_nullables (rules : List Rule) : List Rule :=
  nullStep^[rules.length + 1] rules

/-! ## First-set graph (`make_first_graph`, parser_generator.py lines
203-218; `initial_names` lives in the absent grammar.py and is modelled
from the spec §4.1: from each alternative take the names of the first item
and, transitively, of each following item while the previous one is
nullable; token-class leaves contribute no vertex). -/

mutual

def itemInitialNames (rules : List Rule) : Item → List String
  | .nameLeaf s => if s ∈ tokenClasses then [] else [s]
  | .stringLeaf _ => []
  | .group r => rhsInitialNames rules r
  | .opt x => itemInitialNames rules x
  | .repeat0 x => itemInitialNames rules x
  | .repeat1 x => itemInitialNames rules x
  | .posLookahead x => itemInitialNames rules x
  | .negLookahead x => itemInitialNames rules x

def rhsInitialNames (rules : List Rule) : Rhs → List String
  | .mk alts => altsInitialNames rules alts

def altsInitialNames (rules : List Rule) : List Alt → List String
  | [] => []
  | a :: as => altInitialNames rules a ++ altsInitialNames rules as

def altInitialNames (rules : List Rule) : Alt → List String
  | .mk items _ => itemsInitialNames rules items

def itemsInitialNames (rules : List Rule) : List NamedItem → List String
  | [] => []
  | .mk _ it :: rest =>
    itemInitialNames rules it
      ++ (if itemNullable rules it then itemsInitialNames rules rest else [])

end

/-- A finite directed graph on rule names: an ordered association list from
vertex to successor list (the Python dict of sets). -/
abbrev Graph := List (String × List String)

/-- `make_first_graph` (parser_generator.py lines 203-218): one entry per
rule, then `setdefault` an empty entry for every mentioned vertex. -/
def make_first_graph (rules : List Rule) : Graph :=
  let base := rules.map (fun r => (r.name, rhsInitialNames rules r.rhs))
  let vertices := ((base.map Prod.snd).flatten).dedup
  base ++ (vertices.filter (fun v => !(base.any (fun p => p.1 = v)))).map (fun v => (v, []))

/-! ## Strongly connected components and cycles (modelled from the spec
§4.1: sccutils.py is not in src; SCCs are the classes of the mutual
reachability relation and `find_cycles_in_scc` enumerates the simple
cycles inside an SCC).  Reachability is computed by saturating the
one-step successor map, with enough iterations to reach the fixed point. -/

/-- Successors of a vertex. -/
def nbrs (g : Graph) (v : String) : List String :=
  ((g.find? (fun p => p.1 = v)).map Prod.snd).getD []

/-- The vertex list of the graph (Python dict keys are unique; lists are
deduplicated to match). -/
def keysOf (g : Graph) : List String := (g.map Prod.fst).dedup

/-- Every vertex that occurs as a successor anywhere in the graph. -/
def allTargets (g : Graph) : Finset String := ((g.map Prod.snd).flatten).toFinset

/-- One saturation step: add all one-step successors. -/
def expandF (g : Graph) (s : Finset String) : Finset String :=
  s ∪ s.biUnion (fun v => (nbrs g v).toFinset)

/-- Enough iterations for `expandF` to reach its fixed point. -/
def reachBound (g : Graph) : Nat := (allTargets g).card + 1

/-- The set of vertices reachable from `v` (including `v`). -/
def reachSet (g : Graph) (v : String) : Finset String :=
  (expandF g)^[reachBound g] {v}

/-- Decidable reachability. -/
def reachB (g : Graph) (u v : String) : Bool := decide (v ∈ reachSet g u)

/-- Edge test. -/
def edgeB (g : Graph) (u v : String) : Bool := decide (v ∈ nbrs g u)

/-- The strongly connected component of `v`: all keys mutually reachable
with `v`, in key order. -/
def sccOf (g : Graph) (v : String) : List String :=
  (keysOf g).filter (fun u => reachB g v u && reachB g u v)

/-- The SCC partition: each component listed once. -/
def sccsOf (g : Graph) : List (List String) := ((keysOf g).map (sccOf g)).dedup

/-- Depth-first enumeration of the simple cycles through `start`: `cur` is
the current vertex, `pathRev` the vertices taken so far (reversed), `avail`
the vertices still allowed.  `fuel` is kept equal to `avail.length` by every
caller (each recursive call erases exactly one member), so the `0` case —
where `avail` is empty and no extension exists anyway — only mirrors the
empty-filter behaviour; the recursion is structural on `fuel`. -/
def cyclesGo (g : Graph) (start : String) : Nat → String → List String → List String →
    List (List String)
  | 0, cur, pathRev, _ =>
    (if edgeB g cur start then [pathRev.reverse] else [])
  | fuel + 1, cur, pathRev, avail =>
    (if edgeB g cur start then [pathRev.reverse] else [])
    ++ ((avail.filter (fun n => edgeB g cur n)).map
          (fun n => cyclesGo g start fuel n (n :: pathRev) (avail.erase n))).flatten

/-- Modelled from the spec (§4.1): `find_cycles_in_scc` from the absent
sccutils.py — all simple cycles through `start` using only vertices of the
SCC. -/
def find_cycles_in_scc (g : Graph) (scc : List String) (start : String) : List (List String) :=
  cyclesGo g start (scc.erase start).length start [start] (scc.erase start)

/-- All simple cycles inside the SCC (each rotation enumerated from its own
start, exactly as the Python loop over `start in scc` does; the member sets
are what the leader computation consumes). -/
def simpleCyclesIn (g : Graph) (scc : List String) : List (List String) :=
  (scc.map (find_cycles_in_scc g scc)).flatten

/-- The leader candidates of an SCC: members common to every enumerated
cycle (`leaders -= (scc - set(cycle))` folded over all cycles,
parser_generator.py lines 184-191). -/
def leadersOf (g : Graph) (scc : List String) : List String :=
  scc.filter (fun m => (simpleCyclesIn g scc).all (fun c => decide (m ∈ c)))

/-- Python `min` over a list of strings (lexicographic). -/
def minString : List String → Option String
  | [] => none
  | x :: xs => some (xs.foldl (fun a b => if b < a then b else a) x)

/-- Rendering of an SCC in the error message (Python formats the set with
its members; quoting is omitted here). -/
def renderSet (scc : List String) : String :=
  "\x7b" ++ String.intercalate ", " scc ++ "\x7d"

/-- The `ValueError` message of parser_generator.py lines 190-191. -/
def noLeaderMessage (scc : List String) : String :=
  "SCC " ++ renderSet scc
    ++ " has no leadership candidate (no element is included in all cycles)"

/-- Set the `left_recursive` flag of the named rule. -/
def setLeftRecursive (rules : List Rule) (n : String) : List Rule :=
  rules.map (fun r => if r.name = n then { r with left_recursive := true } else r)

/-- Set the `leader` flag of the named rule. -/
def setLeader (rules : List Rule) (n : String) : List Rule :=
  rules.map (fun r => if r.name = n then { r with leader := true } else r)

/-- The per-SCC body of `compute_left_recursives` (parser_generator.py
lines 179-199): size > 1 marks every member left-recursive and crowns the
minimal leader candidate, failing when there is none; size 1 sets both
flags exactly when the vertex has a self-edge.  (An empty component never
arises: every component contains the vertex it was built from.) -/
def processScc (g : Graph) (rules : List Rule) (scc : List String) : Except String (List Rule) :=
  if scc.length > 1 then
    let rules₁ := scc.foldl setLeftRecursive rules
    match minString (leadersOf g scc) with
    | none => .error (noLeaderMessage scc)
    | some leader => .ok (setLeader rules₁ leader)
  else
    match scc with
    | [nm] =>
      if edgeB g nm nm then .ok (setLeader (setLeftRecursive rules nm) nm)
      else .ok rules
    | _ => .ok rules

/-- The SCC fold of `compute_left_recursives`. -/
def assignLeftRec (g : Graph) (sccs : List (List String)) (rules : List Rule) :
    Except String (List Rule) :=
  sccs.foldlM (processScc g) rules

/-- `compute_left_recursives` (parser_generator.py lines 176-200). -/
def compute_left_recursives (rules : List Rule) :
    Except String (Graph × List (List String) × List Rule) := do
  let g := make_first_graph rules
  let sccs := sccsOf g
  let rules' ← assignLeftRec g sccs rules
  .ok (g, sccs, rules')

/-! ## Generator construction and the generation pass
(`ParserGenerator.__init__`, parser_generator.py lines 77-84, and
`CParserGenerator.generate`, c_generator.py lines 189-210) -/

/-- `ParserGenerator.__init__`: run the analyses (a no-leader SCC raises
here, before anything is written), then copy the rules into the work-list
and zero the counters. -/
def init_gen (rules : List Rule) : Except String GState := do
  let rules₀ := compute_nullables rules
  let (_g, _sccs, rules₁) ← compute_left_recursives rules₀
  .ok { counter := 0, todo := rules₁, rules := rules₁, cache := [], varCounter := 0 }

/-- Modelled from the spec (§4.2): `Rule.collect_todo` from the absent
grammar.py — walk every alternative and item of the rule, invoking the
planner on each item so that helper rules get allocated. -/
def collectTodoItems : List NamedItem → GState → Except String GState
  | [], st => .ok st
  | ni :: rest, st => do
      let (_, st') ← visitItem ni.item st
      collectTodoItems rest st'

def collectTodoAlts : List Alt → GState → Except String GState
  | [], st => .ok st
  | a :: rest, st => do
      let st' ← collectTodoItems a.items st
      collectTodoAlts rest st'

def collectTodoRule (r : Rule) (st : GState) : Except String GState :=
  collectTodoAlts r.rhs.alts st

/-- The per-pending-name loop of `ParserGenerator.collect_todo`. -/
def collectTodoNames : List String → GState → Except String GState
  | [], st => .ok st
  | n :: rest, st =>
      match findRule st.todo n with
      | some r => do
          let st' ← collectTodoRule r st
          collectTodoNames rest st'
      | none => collectTodoNames rest st

/-- `ParserGenerator.collect_todo` (parser_generator.py lines 139-148):
process newly added work-list entries until none remain (fuel bounds the
outer while loop). -/
def collect_todo : Nat → List String → GState → Except String GState
  | fuel, done, st =>
    let all := st.todo.map (fun r => r.name)
    let pending := all.filter (fun n => !(done.contains n))
    if pending.isEmpty then .ok st
    else
      match fuel with
      | 0 => .error "fuel exhausted in collect_todo"
      | fuel' + 1 => do
          let st' ← collectTodoNames pending st
          collect_todo fuel' all st'

/-- Remove the named rule from the work-list (`del self.todo[rulename]`). -/
def removeByName (n : String) : List Rule → List Rule
  | [] => []
  | r :: rest => if r.name = n then rest else r :: removeByName n rest

/-- One snapshot pass of the emission loop (c_generator.py lines 205-208):
delete each rule from the work-list, print a blank line, emit the rule. -/
def emit_snapshot : List Rule → GState → Except String (List String × GState)
  | [], st => .ok ([], st)
  | r :: rs, st => do
      let st₀ := { st with todo := removeByName r.name st.todo }
      let (l₁, st₁) ← visit_Rule r st₀
      let (l₂, st₂) ← emit_snapshot rs st₁
      .ok (("" :: l₁) ++ l₂, st₂)

/-- The `while self.todo` emission loop (c_generator.py line 204): repeat
snapshot passes while rule emission keeps adding helpers (fuel bounds the
while loop). -/
def emit_all : Nat → GState → Except String (List String × GState)
  | 0, st => if st.todo.isEmpty then .ok ([], st) else .error "fuel exhausted in generate"
  | fuel + 1, st =>
    if st.todo.isEmpty then .ok ([], st)
    else do
      let (l₁, st₁) ← emit_snapshot st.todo st
      let (l₂, st₂) ← emit_all fuel st₁
      .ok (l₁ ++ l₂, st₂)

/-- The module header (`EXTENSION_PREFIX`, c_generator.py lines 11-15),
printed as one `self.print` call. -/
def extensionHeader (filename : String) : String :=
  "// @generated by pegen.py from " ++ filename ++ "\n\n#include \"pegen.h\"\n"

/-- The module footer (`EXTENSION_SUFFIX.rstrip` with the `%(mode)s`
substitution applied, c_generator.py lines 16-63 and 210). -/
def extensionFooter (mode : Nat) : String :=
  "\n// TODO: Allow specifying a module name\n\nstatic PyObject *\n"
  ++ "parse_file(PyObject *self, PyObject *args)\n\x7b\n"
  ++ "    const char *filename;\n\n"
  ++ "    if (!PyArg_ParseTuple(args, \"s\", &filename))\n"
  ++ "        return NULL;\n"
  ++ "    return run_parser_from_file(filename, (void *)start_rule, " ++ toString mode ++ ");\n"
  ++ "\x7d\n\nstatic PyObject *\n"
  ++ "parse_string(PyObject *self, PyObject *args)\n\x7b\n"
  ++ "    const char *the_string;\n\n"
  ++ "    if (!PyArg_ParseTuple(args, \"s\", &the_string))\n"
  ++ "        return NULL;\n"
  ++ "    return run_parser_from_string(the_string, (void *)start_rule, " ++ toString mode ++ ");\n"
  ++ "\x7d\n\nstatic PyMethodDef ParseMethods[] = \x7b\n"
  ++ "    \x7b\"parse_file\",  parse_file, METH_VARARGS, \"Parse a file.\"\x7d,\n"
  ++ "    \x7b\"parse_string\",  parse_string, METH_VARARGS, \"Parse a string.\"\x7d,\n"
  ++ "    \x7bNULL, NULL, 0, NULL\x7d        /* Sentinel */\n"
  ++ "\x7d;\n\nstatic struct PyModuleDef parsemodule = \x7b\n"
  ++ "    PyModuleDef_HEAD_INIT,\n"
  ++ "    .m_name = \"parse\",\n"
  ++ "    .m_doc = \"A parser.\",\n"
  ++ "    .m_methods = ParseMethods,\n"
  ++ "\x7d;\n\nPyMODINIT_FUNC\n"
  ++ "PyInit_parse(void)\n\x7b\n"
  ++ "    PyObject *m = PyModule_Create(&parsemodule);\n"
  ++ "    if (m == NULL)\n"
  ++ "        return NULL;\n\n"
  ++ "    return m;\n"
  ++ "\x7d\n\n// The end"

/-- The `#define <rule>_type <i>` lines, numbering from 1000 in work-list
order (c_generator.py lines 192-193). -/
def defineLinesGo : Nat → List String → List String
  | _, [] => []
  | i, n :: rest => ind 0 ("#define " ++ n ++ "_type " ++ toString i) :: defineLinesGo (i + 1) rest

/-- A forward declaration line (c_generator.py lines 195-202). -/
def fwdDeclLine (r : Rule) : String :=
  let ty := if r.is_loop then "asdl_seq *"
            else if optTruthy r.type then r.type.getD "" ++ " "
            else "void *"
  ind 0 ("static " ++ ty ++ r.name ++ "_rule(Parser *p);")

/-- The outcome of a generation pass: the lines actually written to the
output stream, and the error (if any) that aborted the pass.  Python writes
incrementally, so lines printed before a failure stay written. -/
structure GenOutput where
  lines : List String
  error : Option String
deriving DecidableEq

/-- `CParserGenerator.generate` (c_generator.py lines 189-210): expand the
work-list, print header / type defines / forward declarations, emit every
rule body, and only then look up `self.rules['start']` to choose the entry
shim mode — a missing `start` rule raises `KeyError` at that point, after
everything but the footer has been written. -/
def generateOut (filename : String) (fuel : Nat) (st : GState) : GenOutput :=
  match collect_todo fuel [] st with
  | .error e => { lines := [], error := some e }
  | .ok st₁ =>
    let head := [ind 0 (extensionHeader filename)]
      ++ defineLinesGo 1000 (st₁.todo.map (fun r => r.name))
      ++ [""]
      ++ st₁.todo.map fwdDeclLine
      ++ [""]
    match emit_all fuel st₁ with
    | .error e => { lines := head, error := some e }
    | .ok (body, st₂) =>
      match findRule st₂.rules "start" with
      | none => { lines := head ++ body, error := some "KeyError: start" }
      | some startRule =>
        let mode := if startRule.type = some "mod_ty" then 1 else 0
        { lines := head ++ body ++ [ind 0 (extensionFooter mode)], error := none }

/-- The whole pass: construct the generator (running the analyses), then
generate; a constructor failure produces no output at all. -/
def runCGenerator (rules : List Rule) (filename : String) (fuel : Nat) : GenOutput :=
  match init_gen rules with
  | .error e => { lines := [], error := some e }
  | .ok st => generateOut filename fuel st

/-! ## Runtime semantics of the emitted loop-rule code

A direct transcription of the C text produced by `ruleBody` and `emit_Alt`
for a loop rule (`while (...) \x7b ... children[n++] = res; mark = p->mark;
\x7d p->mark = mark; ... insert_memo(p, mark, <name>_type, seq); return
seq;`): `step` models one full success of the single alternative — given
the current input position it returns the new position and the iteration's
`res` value, or `none` on failure.  `fuel` bounds the unbounded C loop. -/

/-- The `while` loop: append each success and advance the saved `mark`. -/
def loopIter (step : Nat → Option (Nat × Nat)) : Nat → Nat → List Nat → Nat × List Nat
  | 0, mark, children => (mark, children)
  | fuel + 1, mark, children =>
    match step mark with
    | none => (mark, children)
    | some (m', res) => loopIter step fuel m' (children ++ [res])

/-- The observable outcome of one run of an emitted loop-rule function. -/
structure LoopSemResult where
  seq : Option (List Nat)
  memoInsertedAt : Option Nat
  finalMark : Nat
deriving DecidableEq

/-- One run of the emitted loop-rule body from input position `startMark`:
after the loop, a `_loop1` rule fails on zero iterations; otherwise the
children are frozen and `insert_memo(p, mark, ...)` records them at the
current value of the `mark` variable. -/
def loopRuleSem (is_repeat1 : Bool) (step : Nat → Option (Nat × Nat)) (fuel startMark : Nat) :
    LoopSemResult :=
  let (mark, children) := loopIter step fuel startMark []
  if is_repeat1 && children.isEmpty then
    { seq := none, memoInsertedAt := none, finalMark := mark }
  else
    { seq := some children, memoInsertedAt := some mark, finalMark := mark }

/-- A cut marker in an alternative: an item that is `NameLeaf "CUT"` with no
(truthy) explicit bind name, so that its planned variable name is the
default `cut_var`. -/
def isUnnamedCut : NamedItem → Bool
  | .mk nm (.nameLeaf s) => !(optTruthy nm) && s == "CUT"
  | _ => false

/-- Whether an alternative's items contain an unnamed cut marker. -/
def hasUnnamedCut (items : List NamedItem) : Bool := items.any isUnnamedCut

/-- Whether any item of the alternative is a `NameLeaf "CUT"` at all (named
or not). -/
def hasCutLeaf (items : List NamedItem) : Bool :=
  items.any (fun ni => match ni.item with | .nameLeaf s => s == "CUT" | _ => false)

/-- A fresh generator state (used as the starting state of witnesses). -/
def st0 : GState := { counter := 0, todo := [], rules := [], cache := [], varCounter := 0 }

/-- A synthesized loop rule of the shape `name_loop` produces, used as a
witness input. -/
def loopRuleW : Rule :=
  { name := "_loop0_1", type := none,
    rhs := Rhs.mk [Alt.mk [NamedItem.mk none (Item.nameLeaf "NAME")] none] }

/-- The concrete step function of the loop-semantics counterexample: the
alternative succeeds at positions 0 and 1 (moving to 1 and 2 with results
10 and 20) and fails elsewhere. -/
def c4Step : Nat → Option (Nat × Nat) :=
  fun m => if m = 0 then some (1, 10) else if m = 1 then some (2, 20) else none

/-- A directly left-recursive leader rule, used as a witness input. -/
def exprRule : Rule :=
  { name := "expr", type := none,
    rhs := Rhs.mk [Alt.mk [NamedItem.mk none (Item.nameLeaf "NAME")] none],
    left_recursive := true, leader := true }

/-- The two-function layout the emitter produces for a left-recursive rule:
the forward declaration of `<name>_raw`, the header of `<name>_rule` whose
body is the seed-growing loop (`seedGrowLines`), then the header of
`<name>_raw` followed by the plain rule body with memoization disabled
(`memoize = not leader = false` for a leader). -/
def leaderEmission (node : Rule) (st : GState) : Except String (List String × GState) :=
  let ty := if node.is_loop then "asdl_seq *"
            else if optTruthy node.type then node.type.getD ""
            else "void *"
  do
    let (body, st₂) ← ruleBody node node.is_loop (node.name.startsWith ("_loop1")) false ty
        node.flatten { st with varCounter := st.varCounter + 1 }
    Except.ok
      (([ind 0 ("// " ++ renderRule node),
         ind 0 ("static " ++ ty ++ " " ++ node.name ++ "_raw(Parser *);"),
         ind 0 ("static " ++ ty),
         ind 0 (node.name ++ "_rule(Parser *p)")]
        ++ seedGrowLines node.name ty st.varCounter
        ++ [ind 0 ("static " ++ ty), ind 0 (node.name ++ "_raw(Parser *p)")]
        ++ body), st₂)

/-- A four-rule grammar whose first-set graph is `a → b`, `b → a | c`,
`c → d`, `d → c | a`: one SCC `{a, b, c, d}` whose two short cycles
`[a, b]` and `[c, d]` share no member, so no leadership candidate exists. -/
def c3Rules : List Rule :=
  [ { name := "a", type := none,
      rhs := Rhs.mk [Alt.mk [NamedItem.mk none (Item.nameLeaf "b")] none] },
    { name := "b", type := none,
      rhs := Rhs.mk [Alt.mk [NamedItem.mk none (Item.nameLeaf "a")] none,
                     Alt.mk [NamedItem.mk none (Item.nameLeaf "c")] none] },
    { name := "c", type := none,
      rhs := Rhs.mk [Alt.mk [NamedItem.mk none (Item.nameLeaf "d")] none] },
    { name := "d", type := none,
      rhs := Rhs.mk [Alt.mk [NamedItem.mk none (Item.nameLeaf "c")] none,
                     Alt.mk [NamedItem.mk none (Item.nameLeaf "a")] none] } ]

/-! ## Helper lemmas -/

theorem ind_length (lvl : Nat) (s : String) :
    (ind lvl s).length = (String.join (List.replicate lvl "    ")).length + s.length := by
  unfold ind
  exact String.length_append _ _

theorem ind_ne_of_length_ne (lvl : Nat) (s t : String) (h : s.length ≠ t.length) :
    ind lvl s ≠ ind lvl t := by
  intro he
  apply h
  have := congrArg String.length he
  rw [ind_length, ind_length] at this
  omega

theorem getLast?_cons_of_eq {α : Type} (a : α) (l : List α) (x : α)
    (h : l.getLast? = some x) : (a :: l).getLast? = some x := by
  rcases l with _ | ⟨b, t⟩
  · cases h
  · rw [List.getLast?_cons_cons]
    exact h

theorem getLast?_append_of_eq {α : Type} (l t : List α) (x : α)
    (h : t.getLast? = some x) : (l ++ t).getLast? = some x := by
  have hne : t ≠ [] := by
    intro he
    subst he
    cases h
  rw [List.getLast?_append_of_ne_nil _ hne]
  exact h

theorem splitAtLParen_eq_none_iff (l : List Char) :
    splitAtLParen l = none ↔ '(' ∉ l := by
  induction l with
  | nil => simp [splitAtLParen]
  | cons c rest ih =>
    by_cases hc : c = '('
    · subst hc
      simp [splitAtLParen]
    · rcases hsp : splitAtLParen rest with _ | p
      · have hmem : '(' ∉ rest := ih.mp hsp
        simp only [splitAtLParen, if_neg hc, hsp]
        constructor
        · intro _ hmem2
          rcases List.mem_cons.mp hmem2 with h | h
          · exact hc h.symm
          · exact hmem h
        · intro _
          trivial
      · obtain ⟨a, b⟩ := p
        have hmem : '(' ∈ rest := by
          by_contra hn
          rw [ih.mpr hn] at hsp
          cases hsp
        simp only [splitAtLParen, if_neg hc, hsp]
        constructor
        · intro h
          simp at h
        · intro h
          exact absurd (List.mem_cons_of_mem _ hmem) h

theorem splitAtLParen_append (l a b : List Char)
    (h : splitAtLParen l = some (a, b)) : l = a ++ '(' :: b := by
  induction l generalizing a b with
  | nil => simp [splitAtLParen] at h
  | cons c rest ih =>
    by_cases hc : c = '('
    · subst hc
      simp [splitAtLParen] at h
      obtain ⟨ha, hb⟩ := h
      subst ha
      subst hb
      simp
    · simp only [splitAtLParen, if_neg hc] at h
      rcases hsp : splitAtLParen rest with _ | p
      · rw [hsp] at h
        cases h
      · obtain ⟨a', b'⟩ := p
        rw [hsp] at h
        simp only [Option.some.injEq, Prod.mk.injEq] at h
        rw [← h.1, ← h.2]
        simp [ih a' b' hsp]

theorem dedupe_mem_self (orig : String) (names : List String) :
    orig ∈ (dedupe orig names).2 := by
  unfold dedupe
  by_cases h : orig ∈ names
  · exact List.mem_append_left _ h
  · have : dedupeIdx orig names 0 (names.length + 1) = 0 := by
      rw [dedupeIdx]
      simp [dedupeCand, h]
    rw [this]
    simp [dedupeCand]

theorem dedupe_snd (orig : String) (names : List String) :
    (dedupe orig names).2 = names ++ [(dedupe orig names).1] := rfl

theorem mem_dedupe_of_mem (orig x : String) (names : List String) (h : x ∈ names) :
    x ∈ (dedupe orig names).2 :=
  List.mem_append_left _ h

/-! ## Claim theorems -/

/-- C8: For every `StringLeaf`, after unquoting: an identifier-shaped value
plans to variable name `keyword` with a keyword-matcher call carrying the
literal; otherwise a value present in the fixed punctuation table plans to
variable name `literal` with an expect-token call carrying the table's
numeric code; otherwise planning fails with an error. -/
theorem c8_string_leaf_planning (v val : String) (huq : unquote v = .ok val) :
    (matchesKeywordPat val = true →
      visit_StringLeaf v = .ok (some "keyword", "keyword_token(p, \"" ++ val ++ "\")"))
    ∧ (matchesKeywordPat val = false →
        (∀ code, lookupTok val exact_token_types = some code →
          visit_StringLeaf v = .ok (some "literal", "expect_token(p, " ++ toString code ++ ")"))
        ∧ (lookupTok val exact_token_types = none →
          visit_StringLeaf v = .error (v ++ " is not a known literal"))) := by
  refine ⟨fun hk => ?_, fun hk => ⟨fun code hc => ?_, fun hc => ?_⟩⟩
  · simp [visit_StringLeaf, huq, hk, Except.bind, bind]
  · simp [visit_StringLeaf, huq, hk, hc, Except.bind, bind]
  · simp [visit_StringLeaf, huq, hk, hc, Except.bind, bind]

/-- Witness for C8 at the punctuation literal `'+'`. -/
theorem c8_witness :
    unquote "'+'" = .ok "+" ∧
    visit_StringLeaf "'+'" = .ok (some "literal", "expect_token(p, 14)") :=
  ⟨rfl, ((c8_string_leaf_planning "'+'" "+" rfl).2 (by decide)).1 14 (by decide)⟩

/-- C10: lookahead planning splits the inner item's call text at the first
opening parenthesis and requires the text to end with a closing parenthesis;
when the call has no parenthesis, or does not end with `)`, planning fails —
in particular a lookahead over an `Opt` (whose call ends with `, 1`) always
fails. -/
theorem lookahead_result_comma_one (positive : Nat) (c : String) :
    ∃ msg, lookahead_result positive (c ++ ", 1") = .error msg := by
  have htl : (c ++ ", 1").toList = c.toList ++ [',', ' ', '1'] := by
    have h := String.data_append c ", 1"
    simp only [String.toList]
    rw [h]
  rcases hsp : splitAtLParen (c ++ ", 1").toList with _ | p
  · refine ⟨"ValueError: not enough values to unpack (expected 2)", ?_⟩
    unfold lookahead_result
    rw [hsp]
  · obtain ⟨funcCs, argCs⟩ := p
    have hdecomp := splitAtLParen_append _ _ _ hsp
    rw [htl] at hdecomp
    have h1 : (funcCs ++ '(' :: argCs).getLast? = some '1' := by
      rw [← hdecomp]
      rw [List.getLast?_append_of_ne_nil _ (by simp)]
      rfl
    rw [List.getLast?_append_cons] at h1
    rcases argCs with _ | ⟨a, as⟩
    · simp at h1
    · rw [List.getLast?_cons_cons] at h1
      refine ⟨"AssertionError: args[-1] == ')'", ?_⟩
      unfold lookahead_result
      rw [hsp]
      simp [h1]

theorem c10_lookahead_requires_plain_call :
    (∀ positive call, '(' ∉ call.toList →
      lookahead_result positive call =
        .error "ValueError: not enough values to unpack (expected 2)")
    ∧ (∀ positive call funcCs argCs, splitAtLParen call.toList = some (funcCs, argCs) →
        argCs.getLast? ≠ some ')' →
        ∃ msg, lookahead_result positive call = .error msg)
    ∧ (∀ x st n c st', visitItem x st = .ok ((n, c), st') →
        ∃ msg, visitItem (Item.posLookahead (Item.opt x)) st = .error msg) := by
  refine ⟨fun positive call h => ?_, fun positive call funcCs argCs hsp hlast => ?_,
          fun x st n c st' hx => ?_⟩
  · unfold lookahead_result
    rw [(splitAtLParen_eq_none_iff call.toList).mpr h]
  · rcases hl : argCs.getLast? with _ | last
    · refine ⟨"IndexError: string index out of range", ?_⟩
      unfold lookahead_result
      rw [hsp]
      simp [hl]
    · have hne : ¬ (last = ')') := fun he => hlast (by rw [hl, he])
      refine ⟨"AssertionError: args[-1] == ')'", ?_⟩
      unfold lookahead_result
      rw [hsp]
      simp [hl, hne]
  · obtain ⟨msg, hmsg⟩ := lookahead_result_comma_one 1 c
    refine ⟨msg, ?_⟩
    simp [visitItem, hx, hmsg, Except.bind, bind]

/-- Witness for C10: a positive lookahead over `(NAME)?`. -/
theorem c10_witness :
    ∃ msg, visitItem (Item.posLookahead (Item.opt (Item.nameLeaf "NAME")))
        { counter := 0, todo := [], rules := [], cache := [], varCounter := 0 } = .error msg := by
  have h : visitItem (Item.nameLeaf "NAME")
      { counter := 0, todo := [], rules := [], cache := [], varCounter := 0 } =
      .ok ((some "name_var", "name_token(p)"),
           { counter := 0, todo := [], rules := [], cache := [], varCounter := 0 }) := by
    with_unfolding_all rfl
  exact c10_lookahead_requires_plain_call.2.2 _ _ _ _ _ h

theorem visitRhs_eq_single (ni : NamedItem) (act : Option String) (st : GState) :
    visitRhs (Rhs.mk [Alt.mk [ni] act]) st =
      (match lookupCache (.rhsK (.mk [Alt.mk [ni] act])) st.cache with
      | some pr => .ok (pr, st)
      | none => (do
          let (pr, st') ← visitNamedItem ni st
          Except.ok (pr, addCache (.rhsK (.mk [Alt.mk [ni] act])) pr st'))) := by
  with_unfolding_all rfl

theorem visitRhs_eq_other (rhs : Rhs) (st : GState)
    (hshape : ∀ ni act, rhs ≠ Rhs.mk [Alt.mk [ni] act]) :
    visitRhs rhs st =
      (match lookupCache (.rhsK rhs) st.cache with
      | some pr => .ok (pr, st)
      | none =>
        .ok ((some ((name_node rhs st).1 ++ "_var"), (name_node rhs st).1 ++ "_rule(p)"),
             addCache (.rhsK rhs)
               (some ((name_node rhs st).1 ++ "_var"), (name_node rhs st).1 ++ "_rule(p)")
               (name_node rhs st).2)) := by
  rcases rhs with ⟨alts⟩
  rcases alts with _ | ⟨a, rest⟩
  · with_unfolding_all rfl
  · rcases a with ⟨items, act⟩
    rcases rest with _ | ⟨b, rest2⟩
    · rcases items with _ | ⟨ni, irest⟩
      · with_unfolding_all rfl
      · rcases irest with _ | ⟨ni2, irest2⟩
        · exact absurd rfl (hshape ni act)
        · with_unfolding_all rfl
    · rcases items with _ | ⟨ni, irest⟩
      · with_unfolding_all rfl
      · rcases irest with _ | ⟨ni2, irest2⟩
        · with_unfolding_all rfl
        · with_unfolding_all rfl

/-- C6 (amended): planning an `Rhs` not in the cache allocates a fresh
`_tmp_<n>` helper rule (appended to the work-list) and plans the reference
as an invocation of that helper exactly when the `Rhs` is NOT a single
alternative holding a single item; a single alternative with a single item
delegates to that item's own plan instead. -/
theorem c6_helper_allocation (rhs : Rhs) (st : GState)
    (hmiss : lookupCache (.rhsK rhs) st.cache = none) :
    (∀ ni act, rhs = Rhs.mk [Alt.mk [ni] act] →
      visitRhs rhs st = (do
        let (pr, st') ← visitNamedItem ni st
        Except.ok (pr, addCache (.rhsK rhs) pr st')))
    ∧ ((∀ ni act, rhs ≠ Rhs.mk [Alt.mk [ni] act]) →
      visitRhs rhs st =
        .ok ((some ((name_node rhs st).1 ++ "_var"), (name_node rhs st).1 ++ "_rule(p)"),
             addCache (.rhsK rhs)
               (some ((name_node rhs st).1 ++ "_var"), (name_node rhs st).1 ++ "_rule(p)")
               (name_node rhs st).2)
        ∧ (name_node rhs st).1 = "_tmp_" ++ toString (st.counter + 1)
        ∧ (name_node rhs st).2.todo =
            st.todo ++ [{ name := "_tmp_" ++ toString (st.counter + 1), type := none,
                          rhs := rhs }]) := by
  constructor
  · intro ni act h
    subst h
    rw [visitRhs_eq_single, hmiss]
  · intro hshape
    refine ⟨?_, rfl, rfl⟩
    rw [visitRhs_eq_other rhs st hshape, hmiss]

/-- Counterexample for C6: a `Group` body with exactly ONE alternative but
two items is still turned into a `_tmp_1` helper rule, not planned as the
inner item's call — the claim's "exactly when the Rhs has more than one
alternative" is wrong on the code. -/
theorem c6_counterexample :
    (Rhs.mk [Alt.mk [NamedItem.mk none (Item.nameLeaf "NAME"),
                     NamedItem.mk none (Item.nameLeaf "NUMBER")] none]).alts.length = 1
    ∧ ∃ pr st',
        visitRhs (Rhs.mk [Alt.mk [NamedItem.mk none (Item.nameLeaf "NAME"),
                          NamedItem.mk none (Item.nameLeaf "NUMBER")] none]) st0 = .ok (pr, st')
        ∧ pr = (some "_tmp_1_var", "_tmp_1_rule(p)")
        ∧ st'.todo.map (fun r => r.name) = ["_tmp_1"] := by
  refine ⟨rfl, _, _, by with_unfolding_all rfl, rfl, by with_unfolding_all rfl⟩

/-- Witness for C6 at a two-alternative group body. -/
theorem c6_witness :
    visitRhs (Rhs.mk [Alt.mk [NamedItem.mk none (Item.nameLeaf "NAME")] none,
                      Alt.mk [NamedItem.mk none (Item.nameLeaf "NUMBER")] none]) st0 =
      .ok ((some ((name_node (Rhs.mk [Alt.mk [NamedItem.mk none (Item.nameLeaf "NAME")] none,
                    Alt.mk [NamedItem.mk none (Item.nameLeaf "NUMBER")] none]) st0).1 ++ "_var"),
            (name_node (Rhs.mk [Alt.mk [NamedItem.mk none (Item.nameLeaf "NAME")] none,
                    Alt.mk [NamedItem.mk none (Item.nameLeaf "NUMBER")] none]) st0).1 ++ "_rule(p)"),
           addCache (.rhsK (Rhs.mk [Alt.mk [NamedItem.mk none (Item.nameLeaf "NAME")] none,
                    Alt.mk [NamedItem.mk none (Item.nameLeaf "NUMBER")] none]))
             (some ((name_node (Rhs.mk [Alt.mk [NamedItem.mk none (Item.nameLeaf "NAME")] none,
                    Alt.mk [NamedItem.mk none (Item.nameLeaf "NUMBER")] none]) st0).1 ++ "_var"),
              (name_node (Rhs.mk [Alt.mk [NamedItem.mk none (Item.nameLeaf "NAME")] none,
                    Alt.mk [NamedItem.mk none (Item.nameLeaf "NUMBER")] none]) st0).1 ++ "_rule(p)")
             (name_node (Rhs.mk [Alt.mk [NamedItem.mk none (Item.nameLeaf "NAME")] none,
                    Alt.mk [NamedItem.mk none (Item.nameLeaf "NUMBER")] none]) st0).2) :=
  ((c6_helper_allocation
      (Rhs.mk [Alt.mk [NamedItem.mk none (Item.nameLeaf "NAME")] none,
               Alt.mk [NamedItem.mk none (Item.nameLeaf "NUMBER")] none]) st0 rfl).2
    (by intro ni act h; simp at h)).1

/-- C9: an alternative with no explicit action gets the synthesized result
`CONSTRUCTOR(p, ...)` over all bound names when more than one name was
bound, and the first bound name's value otherwise; with zero bound names the
`names[0]` index is out of bounds and generation fails with an error. -/
theorem c9_default_action :
    (∀ names lvl, 1 < names.length →
      altResLines none names lvl =
        .ok [ind lvl ("res = CONSTRUCTOR(p, " ++ String.intercalate ", " names ++ ");")])
    ∧ (∀ n lvl, altResLines none [n] lvl = .ok [ind lvl ("res = " ++ n ++ ";")])
    ∧ (∀ lvl, altResLines none [] lvl = .error "IndexError: list index out of range")
    ∧ (∀ alt is_loop rulename lvl st condL st₁,
        alt.action = none →
        emit_Alt_items alt.items true [] (lvl + 1) st = .ok (condL, [], st₁) →
        emit_Alt alt is_loop rulename lvl st = .error "IndexError: list index out of range") := by
  refine ⟨fun names lvl h => ?_, fun n lvl => ?_, fun lvl => ?_,
          fun alt is_loop rulename lvl st condL st₁ hact hitems => ?_⟩
  · unfold altResLines
    simp [optTruthy, h]
  · unfold altResLines
    simp [optTruthy]
  · unfold altResLines
    simp [optTruthy]
  · unfold emit_Alt
    simp [hitems, hact, Except.bind, bind, altResLines, optTruthy]

/-- Witness for C9: an alternative holding only a lookahead binds no
variable names, so the default action fails. -/
theorem c9_witness :
    emit_Alt (Alt.mk [NamedItem.mk none (Item.posLookahead (Item.nameLeaf "NAME"))] none)
        false none 0 st0 = .error "IndexError: list index out of range" := by
  have h : emit_Alt_items
      (Alt.mk [NamedItem.mk none (Item.posLookahead (Item.nameLeaf "NAME"))] none).items
      true [] 1 st0 = .ok ([ind 1 "lookahead(1, name_token, p)"], [], st0) := by
    with_unfolding_all rfl
  exact c9_default_action.2.2.2 _ false none 0 st0 _ _ rfl h

theorem emit_NamedItem_names_eq (ni : NamedItem) (names : List String) (lvl : Nat)
    (st : GState) (l : List String) (names' : List String) (st' : GState)
    (h : emit_NamedItem ni names lvl st = .ok (l, names', st')) :
    names' = names ∨ ∃ x, names' = names ++ [x] := by
  unfold emit_NamedItem at h
  rcases hv : visitNamedItem ni st with e | ⟨⟨n?, call⟩, st₁⟩
  · rw [hv] at h
    simp [Except.bind, bind] at h
  · rw [hv] at h
    simp only [Except.bind, bind] at h
    by_cases h1 : optTruthy n? = true
    · rw [h1] at h
      simp only [Bool.not_true, Bool.false_eq_true, if_false] at h
      by_cases h2 : n?.getD "" = "cut"
      · rw [if_neg (not_not_intro h2)] at h
        simp at h
        exact Or.inl h.2.1.symm
      · rw [if_pos h2] at h
        simp at h
        exact Or.inr ⟨(dedupe (n?.getD "") names).1, by rw [← h.2.1]; exact dedupe_snd _ _⟩
    · simp only [Bool.not_eq_true] at h1
      simp [h1] at h
      exact Or.inl h.2.1.symm

theorem emit_NamedItem_names_mono (ni : NamedItem) (names : List String) (lvl : Nat)
    (st : GState) (l : List String) (names' : List String) (st' : GState)
    (h : emit_NamedItem ni names lvl st = .ok (l, names', st'))
    (x : String) (hx : x ∈ names) : x ∈ names' := by
  rcases emit_NamedItem_names_eq ni names lvl st l names' st' h with he | ⟨y, he⟩
  · rw [he]; exact hx
  · rw [he]; exact List.mem_append_left _ hx

theorem emit_NamedItem_unnamed_cut (nm : Option String) (names : List String) (lvl : Nat)
    (st : GState) (l : List String) (names' : List String) (st' : GState)
    (hnm : optTruthy nm = false)
    (h : emit_NamedItem (NamedItem.mk nm (Item.nameLeaf "CUT")) names lvl st =
      .ok (l, names', st')) :
    "cut_var" ∈ names' := by
  have hv : visitNamedItem (NamedItem.mk nm (Item.nameLeaf "CUT")) st =
      .ok ((if optTruthy nm then nm else some "cut_var", "cut_token(p)"), st) := by
    have hvi : visitItem (Item.nameLeaf "CUT") st =
        .ok ((some "cut_var", "cut_token(p)"), st) := by
      with_unfolding_all rfl
    simp [visitNamedItem, hvi, Except.bind, bind]
  rw [hnm] at hv
  simp only [Bool.false_eq_true, if_false] at hv
  unfold emit_NamedItem at h
  rw [hv] at h
  simp only [Except.bind, bind] at h
  have hcv : optTruthy (some "cut_var") = true := rfl
  rw [hcv] at h
  simp only [Bool.not_true, Bool.false_eq_true, if_false, if_neg] at h
  have hne : (some "cut_var").getD "" ≠ "cut" := by decide
  rw [if_pos hne] at h
  simp at h
  rw [← h.2.1]
  exact dedupe_mem_self _ _

theorem emit_Alt_items_cut (items : List NamedItem) :
    ∀ first names lvl st condL names' st',
      emit_Alt_items items first names lvl st = .ok (condL, names', st') →
      ("cut_var" ∈ names ∨ hasUnnamedCut items = true) →
      "cut_var" ∈ names' := by
  induction items with
  | nil =>
    intro first names lvl st condL names' st' h hc
    simp [emit_Alt_items] at h
    rcases hc with hc | hc
    · rw [← h.2.1]; exact hc
    · simp [hasUnnamedCut] at hc
  | cons ni rest ih =>
    intro first names lvl st condL names' st' h hc
    unfold emit_Alt_items at h
    rcases h1 : emit_NamedItem ni names lvl st with e | ⟨l₁, names₁, st₁⟩
    · rw [h1] at h; simp [Except.bind, bind] at h
    · rw [h1] at h
      simp only [Except.bind, bind] at h
      rcases h2 : emit_Alt_items rest false names₁ lvl st₁ with e | ⟨l₂, names₂, st₂⟩
      · rw [h2] at h; simp at h
      · rw [h2] at h
        simp at h
        rw [← h.2.1]
        rcases hc with hc | hc
        · exact ih false names₁ lvl st₁ l₂ names₂ st₂ h2
            (Or.inl (emit_NamedItem_names_mono ni names lvl st l₁ names₁ st₁ h1 _ hc))
        · simp [hasUnnamedCut] at hc
          rcases hc with hc | hc
          · rcases ni with ⟨nm, it⟩
            rcases it with s | s | r | x | x | x | x | x <;> simp [isUnnamedCut] at hc
            obtain ⟨hnm, hs⟩ := hc
            subst hs
            exact ih false names₁ lvl st₁ l₂ names₂ st₂ h2
              (Or.inl (emit_NamedItem_unnamed_cut nm names lvl st l₁ names₁ st₁
                (by simp [hnm]) h1))
          · exact ih false names₁ lvl st₁ l₂ names₂ st₂ h2 (Or.inr (by simp [hasUnnamedCut, hc]))

/-- C5 (amended): the failure-path cut check `if (cut_var) return NULL;` is
the last line of an emitted alternative exactly when the alternative's
de-duplicated bound-name list contains `cut_var`; every alternative with an
unnamed Cut item satisfies this, while a Cut item carrying an explicit bind
name does not produce the check and any other item explicitly bound to the
name `cut_var` does. -/
theorem c5_cut_check (alt : Alt) (is_loop : Bool) (rulename : Option String) (lvl : Nat)
    (st : GState) (lines : List String) (st' : GState) (condL : List String)
    (names : List String) (st₁ : GState)
    (hitems : emit_Alt_items alt.items true [] (lvl + 1) st = .ok (condL, names, st₁))
    (h : emit_Alt alt is_loop rulename lvl st = .ok (lines, st')) :
    (lines.getLast? = some (ind lvl "if (cut_var) return NULL;") ↔ "cut_var" ∈ names)
    ∧ (hasUnnamedCut alt.items = true → "cut_var" ∈ names) := by
  constructor
  · unfold emit_Alt at h
    rw [hitems] at h
    simp only [Except.bind, bind] at h
    rcases hres : altResLines alt.action names (lvl + 1) with e | resL
    · rw [hres] at h; simp at h
    · rw [hres] at h
      simp at h
      rw [← h.1]
      by_cases hc : "cut_var" ∈ names
      · rw [if_pos hc]
        constructor
        · intro _
          exact hc
        · intro _
          exact getLast?_cons_of_eq _ _ _ (getLast?_cons_of_eq _ _ _
            (getLast?_append_of_eq _ _ _ (getLast?_cons_of_eq _ _ _
              (getLast?_append_of_eq _ _ _ (getLast?_append_of_eq _ _ _
                (getLast?_cons_of_eq _ _ _ (getLast?_cons_of_eq _ _ _ rfl)))))))
      · rw [if_neg hc]
        have hgl : (ind lvl ("// " ++ renderAlt alt) ::
            ind lvl (if is_loop = true then "while (" else "if (") ::
            (condL ++ ind lvl ") \x7b" ::
              (resL ++ ((if is_loop = true then
                  ind (lvl + 1) "children = PyMem_Realloc(children, (n+1)*sizeof(void *));" ::
                    (oomReturn (lvl + 1) "!children" "NULL" ("realloc " ++ pyOptStr rulename) ++
                      [ind (lvl + 1) "children[n++] = res;", ind (lvl + 1) "mark = p->mark;"])
                else
                  (if optTruthy rulename = true then
                      [ind (lvl + 1) ("insert_memo(p, mark, " ++ pyOptStr rulename ++ "_type, res);")]
                    else []) ++ [ind (lvl + 1) "goto done;"]) ++
                ind lvl "\x7d" :: ind lvl "p->mark = mark;" :: ([] : List String))))).getLast? =
            some (ind lvl "p->mark = mark;") :=
          getLast?_cons_of_eq _ _ _ (getLast?_cons_of_eq _ _ _
            (getLast?_append_of_eq _ _ _ (getLast?_cons_of_eq _ _ _
              (getLast?_append_of_eq _ _ _ (getLast?_append_of_eq _ _ _
                (getLast?_cons_of_eq _ _ _ rfl))))))
        rw [hgl]
        constructor
        · intro hlast
          exfalso
          have hne : ind lvl "p->mark = mark;" ≠ ind lvl "if (cut_var) return NULL;" :=
            ind_ne_of_length_ne lvl _ _ (by decide)
          exact hne (Option.some_inj.mp hlast)
        · intro hmem
          exact absurd hmem hc
  · exact fun hcut => emit_Alt_items_cut alt.items true [] (lvl + 1) st condL names st₁
      hitems (Or.inr hcut)

/-- Witness for C5: an alternative `NAME ~ NAME` (unnamed cut between two
tokens) whose emitted lines end with the cut check. -/
theorem c5_witness :
    ∃ lines st' condL names st₁,
      emit_Alt_items (Alt.mk [NamedItem.mk none (Item.nameLeaf "NAME"),
                              NamedItem.mk none (Item.nameLeaf "CUT")] none).items
        true [] 1 st0 = .ok (condL, names, st₁)
      ∧ emit_Alt (Alt.mk [NamedItem.mk none (Item.nameLeaf "NAME"),
                          NamedItem.mk none (Item.nameLeaf "CUT")] none)
          false none 0 st0 = .ok (lines, st')
      ∧ (lines.getLast? = some (ind 0 "if (cut_var) return NULL;") ↔ "cut_var" ∈ names)
      ∧ (hasUnnamedCut (Alt.mk [NamedItem.mk none (Item.nameLeaf "NAME"),
                                NamedItem.mk none (Item.nameLeaf "CUT")] none).items = true →
         "cut_var" ∈ names) := by
  have h1 : emit_Alt_items (Alt.mk [NamedItem.mk none (Item.nameLeaf "NAME"),
      NamedItem.mk none (Item.nameLeaf "CUT")] none).items true [] 1 st0 =
      .ok (["    (name_var = name_token(p))", "    &&", "    (cut_var = cut_token(p))"],
           ["name_var", "cut_var"], st0) := by
    with_unfolding_all rfl
  have h2 : emit_Alt (Alt.mk [NamedItem.mk none (Item.nameLeaf "NAME"),
      NamedItem.mk none (Item.nameLeaf "CUT")] none) false none 0 st0 =
      .ok (["// NAME CUT", "if (", "    (name_var = name_token(p))", "    &&",
            "    (cut_var = cut_token(p))", ") \x7b",
            "    res = CONSTRUCTOR(p, name_var, cut_var);", "    goto done;", "\x7d",
            "p->mark = mark;", "if (cut_var) return NULL;"], st0) := by
    with_unfolding_all rfl
  exact ⟨_, _, _, _, _, h1, h2, (c5_cut_check _ false none 0 st0 _ _ _ _ _ h1 h2).1,
         (c5_cut_check _ false none 0 st0 _ _ _ _ _ h1 h2).2⟩

/-- Counterexample for C5: an alternative with NO Cut item at all, whose
only item carries the explicit bind name `cut_var`, still gets the cut
check emitted on its failure path — refuting "alternatives without a Cut
simply fall through". -/
theorem c5_counterexample :
    hasCutLeaf (Alt.mk [NamedItem.mk (some "cut_var") (Item.nameLeaf "NAME")]
      (some "\x7b 0 \x7d")).items = false
    ∧ ∃ lines st',
        emit_Alt (Alt.mk [NamedItem.mk (some "cut_var") (Item.nameLeaf "NAME")]
          (some "\x7b 0 \x7d")) false none 0 st0 = .ok (lines, st')
        ∧ lines.getLast? = some (ind 0 "if (cut_var) return NULL;") := by
  refine ⟨by decide,
    ["// cut_var=NAME \x7b 0 \x7d", "if (", "    (cut_var = name_token(p))", ") \x7b",
     "    res = 0;", "    goto done;", "\x7d", "p->mark = mark;", "if (cut_var) return NULL;"],
    st0, by with_unfolding_all rfl, by with_unfolding_all rfl⟩

/-- C1: for a rule flagged both `left_recursive` and `leader`, the emitter
produces the two functions `<name>_rule` and `<name>_raw`: the outer
`<name>_rule` returns the memoized result if one exists, otherwise saves the
starting mark and repeatedly writes the current result into the memo at that
mark, rewinds, calls `<name>_raw`, and breaks when the raw result is absent
or the position did not improve on the best; afterwards it rewinds to the
best position and returns the result (the exact text is `seedGrowLines`);
`<name>_raw` holds the plain non-recursive body. -/
theorem c1_leader_seed_growing (node : Rule) (st : GState)
    (hlr : node.left_recursive = true) (hld : node.leader = true) :
    visit_Rule node st = leaderEmission node st := by
  unfold visit_Rule leaderEmission
  simp only [hlr, hld, Bool.not_true, if_true]
  rfl

/-! ### Per-constructor unfolding equations for the planner

The mutual visitors do not unfold at default transparency; these equations
(each proved by full-unfolding reflexivity) restate their defining cases. -/

theorem visitItem_eq_nameLeaf (s : String) (st : GState) :
    visitItem (.nameLeaf s) st = .ok (visit_NameLeaf s, st) := by
  with_unfolding_all rfl

theorem visitItem_eq_stringLeaf (s : String) (st : GState) :
    visitItem (.stringLeaf s) st = (do
      let pr ← visit_StringLeaf s
      Except.ok (pr, st)) := by
  with_unfolding_all rfl

theorem visitItem_eq_group (r : Rhs) (st : GState) :
    visitItem (.group r) st = visitRhs r st := by
  with_unfolding_all rfl

theorem visitItem_eq_opt (x : Item) (st : GState) :
    visitItem (.opt x) st = (do
      let ((_, call), st') ← visitItem x st
      Except.ok ((some "opt_var", call ++ ", 1"), st')) := by
  with_unfolding_all rfl

theorem visitItem_eq_repeat0 (x : Item) (st : GState) :
    visitItem (.repeat0 x) st =
      (match lookupCache (.itemK (.repeat0 x)) st.cache with
      | some pr => .ok (pr, st)
      | none =>
        .ok (((some ((name_loop x false st).1 ++ "_var"), (name_loop x false st).1 ++ "_rule(p)")
              : PlanResult),
             addCache (.itemK (.repeat0 x))
               (some ((name_loop x false st).1 ++ "_var"), (name_loop x false st).1 ++ "_rule(p)")
               (name_loop x false st).2)) := by
  with_unfolding_all rfl

theorem visitItem_eq_repeat1 (x : Item) (st : GState) :
    visitItem (.repeat1 x) st =
      (match lookupCache (.itemK (.repeat1 x)) st.cache with
      | some pr => .ok (pr, st)
      | none =>
        .ok (((some ((name_loop x true st).1 ++ "_var"), (name_loop x true st).1 ++ "_rule(p)")
              : PlanResult),
             addCache (.itemK (.repeat1 x))
               (some ((name_loop x true st).1 ++ "_var"), (name_loop x true st).1 ++ "_rule(p)")
               (name_loop x true st).2)) := by
  with_unfolding_all rfl

theorem visitItem_eq_posLookahead (x : Item) (st : GState) :
    visitItem (.posLookahead x) st = (do
      let ((_, call), st') ← visitItem x st
      let pr ← lookahead_result 1 call
      Except.ok (pr, st')) := by
  with_unfolding_all rfl

theorem visitItem_eq_negLookahead (x : Item) (st : GState) :
    visitItem (.negLookahead x) st = (do
      let ((_, call), st') ← visitItem x st
      let pr ← lookahead_result 0 call
      Except.ok (pr, st')) := by
  with_unfolding_all rfl

theorem visitNamedItem_eq (nm : Option String) (it : Item) (st : GState) :
    visitNamedItem (.mk nm it) st = (do
      let ((n, call), st') ← visitItem it st
      Except.ok ((if optTruthy nm then nm else n, call), st')) := by
  with_unfolding_all rfl

/-! ### The planner never touches the generator's rule map -/

mutual

theorem visitItem_rules : ∀ (it : Item) (st : GState) (pr : PlanResult) (st' : GState),
    visitItem it st = Except.ok (pr, st') → st'.rules = st.rules
  | .nameLeaf s, st, pr, st', h => by
    rw [visitItem_eq_nameLeaf] at h
    cases h
    rfl
  | .stringLeaf s, st, pr, st', h => by
    rw [visitItem_eq_stringLeaf] at h
    rcases hv : visit_StringLeaf s with e | v
    · rw [hv] at h
      simp [Except.bind, bind] at h
    · rw [hv] at h
      simp only [Except.bind, bind] at h
      cases h
      rfl
  | .group r, st, pr, st', h => by
    rw [visitItem_eq_group] at h
    exact visitRhs_rules r st pr st' h
  | .opt x, st, pr, st', h => by
    rw [visitItem_eq_opt] at h
    rcases hv : visitItem x st with e | ⟨⟨n, call⟩, st₁⟩
    · rw [hv] at h
      simp [Except.bind, bind] at h
    · rw [hv] at h
      simp only [Except.bind, bind] at h
      cases h
      exact visitItem_rules x st _ _ hv
  | .repeat0 x, st, pr, st', h => by
    rw [visitItem_eq_repeat0] at h
    rcases hc : lookupCache (.itemK (.repeat0 x)) st.cache with _ | v
    · rw [hc] at h
      cases h
      rfl
    · rw [hc] at h
      cases h
      rfl
  | .repeat1 x, st, pr, st', h => by
    rw [visitItem_eq_repeat1] at h
    rcases hc : lookupCache (.itemK (.repeat1 x)) st.cache with _ | v
    · rw [hc] at h
      cases h
      rfl
    · rw [hc] at h
      cases h
      rfl
  | .posLookahead x, st, pr, st', h => by
    rw [visitItem_eq_posLookahead] at h
    rcases hv : visitItem x st with e | ⟨⟨n, call⟩, st₁⟩
    · rw [hv] at h
      simp [Except.bind, bind] at h
    · rw [hv] at h
      simp only [Except.bind, bind] at h
      rcases hl : lookahead_result 1 call with e | v
      · rw [hl] at h
        simp at h
      · rw [hl] at h
        cases h
        exact visitItem_rules x st _ _ hv
  | .negLookahead x, st, pr, st', h => by
    rw [visitItem_eq_negLookahead] at h
    rcases hv : visitItem x st with e | ⟨⟨n, call⟩, st₁⟩
    · rw [hv] at h
      simp [Except.bind, bind] at h
    · rw [hv] at h
      simp only [Except.bind, bind] at h
      rcases hl : lookahead_result 0 call with e | v
      · rw [hl] at h
        simp at h
      · rw [hl] at h
        cases h
        exact visitItem_rules x st _ _ hv

theorem visitRhs_rules : ∀ (r : Rhs) (st : GState) (pr : PlanResult) (st' : GState),
    visitRhs r st = Except.ok (pr, st') → st'.rules = st.rules
  | .mk [Alt.mk [ni] act], st, pr, st', h => by
    rw [visitRhs_eq_single] at h
    rcases hc : lookupCache (.rhsK (.mk [Alt.mk [ni] act])) st.cache with _ | v
    · rw [hc] at h
      rcases hv : visitNamedItem ni st with e | ⟨pr₁, st₁⟩
      · rw [hv] at h
        simp [Except.bind, bind] at h
      · rw [hv] at h
        simp only [Except.bind, bind] at h
        cases h
        show st₁.rules = st.rules
        exact visitNamedItem_rules ni st _ _ hv
    · rw [hc] at h
      cases h
      rfl
  | .mk [], st, pr, st', h => by
    rw [visitRhs_eq_other _ _ (by intro ni act he; cases he)] at h
    rcases hc : lookupCache (.rhsK (.mk [])) st.cache with _ | v
    · rw [hc] at h
      cases h
      rfl
    · rw [hc] at h
      cases h
      rfl
  | .mk [Alt.mk [] act], st, pr, st', h => by
    rw [visitRhs_eq_other _ _ (by intro ni act' he; simp at he)] at h
    rcases hc : lookupCache (.rhsK (.mk [Alt.mk [] act])) st.cache with _ | v
    · rw [hc] at h
      cases h
      rfl
    · rw [hc] at h
      cases h
      rfl
  | .mk [Alt.mk (ni :: ni2 :: irest) act], st, pr, st', h => by
    rw [visitRhs_eq_other _ _ (by intro ni' act' he; simp at he)] at h
    rcases hc : lookupCache (.rhsK (.mk [Alt.mk (ni :: ni2 :: irest) act])) st.cache with _ | v
    · rw [hc] at h
      cases h
      rfl
    · rw [hc] at h
      cases h
      rfl
  | .mk (a :: b :: rest), st, pr, st', h => by
    rw [visitRhs_eq_other _ _ (by intro ni' act' he; simp at he)] at h
    rcases hc : lookupCache (.rhsK (.mk (a :: b :: rest))) st.cache with _ | v
    · rw [hc] at h
      cases h
      rfl
    · rw [hc] at h
      cases h
      rfl

theorem visitNamedItem_rules : ∀ (ni : NamedItem) (st : GState) (pr : PlanResult) (st' : GState),
    visitNamedItem ni st = Except.ok (pr, st') → st'.rules = st.rules
  | .mk nm it, st, pr, st', h => by
    rw [visitNamedItem_eq] at h
    rcases hv : visitItem it st with e | ⟨⟨n, call⟩, st₁⟩
    · rw [hv] at h
      simp [Except.bind, bind] at h
    · rw [hv] at h
      simp only [Except.bind, bind] at h
      cases h
      exact visitItem_rules it st _ _ hv

end

/-! ### The emitter never touches the generator's rule map either -/

theorem add_var_rules (ni : NamedItem) (names : List String) (st : GState)
    (out : Option String × Option String) (names' : List String) (st' : GState)
    (h : add_var ni names st = .ok (out, names', st')) : st'.rules = st.rules := by
  unfold add_var at h
  rcases hv : visitItem ni.item st with e | ⟨⟨n?, call⟩, st₁⟩
  · rw [hv] at h
    simp [Except.bind, bind] at h
  · rw [hv] at h
    simp only [Except.bind, bind] at h
    have hr := visitItem_rules ni.item st _ _ hv
    split at h
    · cases h
      exact hr
    · split at h
      · cases h
        exact hr
      · cases h
        exact hr

theorem collect_vars_go_rules : ∀ (items : List NamedItem) (names : List String)
    (types : List (Option String × Option String)) (st : GState)
    (out : List (Option String × Option String)) (st' : GState),
    collect_vars_go items names types st = .ok (out, st') → st'.rules = st.rules := by
  intro items
  induction items with
  | nil =>
    intro names types st out st' h
    simp [collect_vars_go] at h
    rw [← h.2]
  | cons ni rest ih =>
    intro names types st out st' h
    rw [show collect_vars_go (ni :: rest) names types st =
        (do
          let ((n?, ty), names', st') ← add_var ni names st
          collect_vars_go rest names' (dictUpdate n? ty types) st') from rfl] at h
    rcases ha : add_var ni names st with e | ⟨⟨⟨n?, ty⟩, names₁, st₁⟩⟩
    · rw [ha] at h
      simp [Except.bind, bind] at h
    · rw [ha] at h
      simp only [Except.bind, bind] at h
      have h1 := add_var_rules ni names st _ _ _ ha
      have h2 := ih names₁ (dictUpdate n? ty types) st₁ out st' h
      rw [h2, h1]

theorem collectVarsAll_rules : ∀ (alts : List Alt)
    (acc : List (Option String × Option String)) (st : GState)
    (out : List (Option String × Option String)) (st' : GState),
    collectVarsAll alts acc st = .ok (out, st') → st'.rules = st.rules := by
  intro alts
  induction alts with
  | nil =>
    intro acc st out st' h
    simp [collectVarsAll] at h
    rw [← h.2]
  | cons a rest ih =>
    intro acc st out st' h
    rw [show collectVarsAll (a :: rest) acc st =
        (do
          let (tys, st') ← collect_vars a st
          collectVarsAll rest (tys.foldl (fun d p => dictUpdate p.1 p.2 d) acc) st') from rfl] at h
    rcases hc : collect_vars a st with e | ⟨tys, st₁⟩
    · rw [hc] at h
      simp [Except.bind, bind] at h
    · rw [hc] at h
      simp only [Except.bind, bind] at h
      have h1 := collect_vars_go_rules a.items [] [] st tys st₁ hc
      have h2 := ih _ st₁ out st' h
      rw [h2, h1]

theorem emit_NamedItem_rules (ni : NamedItem) (names : List String) (lvl : Nat) (st : GState)
    (l : List String) (names' : List String) (st' : GState)
    (h : emit_NamedItem ni names lvl st = .ok (l, names', st')) : st'.rules = st.rules := by
  unfold emit_NamedItem at h
  rcases hv : visitNamedItem ni st with e | ⟨⟨n?, call⟩, st₁⟩
  · rw [hv] at h
    simp [Except.bind, bind] at h
  · rw [hv] at h
    simp only [Except.bind, bind] at h
    have hr := visitNamedItem_rules ni st _ _ hv
    split at h
    · cases h
      exact hr
    · split at h
      · cases h
        exact hr
      · cases h
        exact hr

theorem emit_Alt_items_rules : ∀ (items : List NamedItem) (first : Bool) (names : List String)
    (lvl : Nat) (st : GState) (l : List String) (names' : List String) (st' : GState),
    emit_Alt_items items first names lvl st = .ok (l, names', st') → st'.rules = st.rules := by
  intro items
  induction items with
  | nil =>
    intro first names lvl st l names' st' h
    simp [emit_Alt_items] at h
    rw [← h.2.2]
  | cons ni rest ih =>
    intro first names lvl st l names' st' h
    unfold emit_Alt_items at h
    rcases h1 : emit_NamedItem ni names lvl st with e | ⟨l₁, names₁, st₁⟩
    · rw [h1] at h
      simp [Except.bind, bind] at h
    · rw [h1] at h
      simp only [Except.bind, bind] at h
      rcases h2 : emit_Alt_items rest false names₁ lvl st₁ with e | ⟨l₂, names₂, st₂⟩
      · rw [h2] at h
        simp [Except.bind, bind] at h
      · rw [h2] at h
        simp only [Except.bind, bind] at h
        cases h
        exact (ih _ _ _ _ _ _ _ h2).trans (emit_NamedItem_rules _ _ _ _ _ _ _ h1)

theorem emit_Alt_rules (alt : Alt) (is_loop : Bool) (rulename : Option String) (lvl : Nat)
    (st : GState) (l : List String) (st' : GState)
    (h : emit_Alt alt is_loop rulename lvl st = .ok (l, st')) : st'.rules = st.rules := by
  unfold emit_Alt at h
  rcases h1 : emit_Alt_items alt.items true [] (lvl + 1) st with e | ⟨condL, names, st₁⟩
  · rw [h1] at h
    simp [Except.bind, bind] at h
  · rw [h1] at h
    simp only [Except.bind, bind] at h
    rcases h2 : altResLines alt.action names (lvl + 1) with e | resL
    · rw [h2] at h
      simp [Except.bind, bind] at h
    · rw [h2] at h
      simp only [Except.bind, bind] at h
      cases h
      exact emit_Alt_items_rules _ _ _ _ _ _ _ _ h1

theorem emit_Alts_rules : ∀ (alts : List Alt) (is_loop : Bool) (rulename : Option String)
    (lvl : Nat) (st : GState) (l : List String) (st' : GState),
    emit_Alts alts is_loop rulename lvl st = .ok (l, st') → st'.rules = st.rules := by
  intro alts
  induction alts with
  | nil =>
    intro is_loop rulename lvl st l st' h
    simp [emit_Alts] at h
    rw [← h.2]
  | cons a rest ih =>
    intro is_loop rulename lvl st l st' h
    unfold emit_Alts at h
    rcases h1 : emit_Alt a is_loop rulename lvl st with e | ⟨l₁, st₁⟩
    · rw [h1] at h
      simp [Except.bind, bind] at h
    · rw [h1] at h
      simp only [Except.bind, bind] at h
      rcases h2 : emit_Alts rest is_loop rulename lvl st₁ with e | ⟨l₂, st₂⟩
      · rw [h2] at h
        simp [Except.bind, bind] at h
      · rw [h2] at h
        simp only [Except.bind, bind] at h
        cases h
        exact (ih _ _ _ _ _ _ h2).trans (emit_Alt_rules _ _ _ _ _ _ _ h1)

theorem emit_Rhs_rules (rhs : Rhs) (is_loop : Bool) (rulename : Option String) (lvl : Nat)
    (st : GState) (l : List String) (st' : GState)
    (h : emit_Rhs rhs is_loop rulename lvl st = .ok (l, st')) : st'.rules = st.rules := by
  unfold emit_Rhs at h
  split at h
  · cases h
  · rcases h1 : collectVarsAll rhs.alts [] st with e | ⟨vars, st₁⟩
    · rw [h1] at h
      simp [Except.bind, bind] at h
    · rw [h1] at h
      simp only [Except.bind, bind] at h
      rcases h2 : emit_Alts rhs.alts is_loop rulename lvl st₁ with e | ⟨altL, st₂⟩
      · rw [h2] at h
        simp [Except.bind, bind] at h
      · rw [h2] at h
        simp only [Except.bind, bind] at h
        cases h
        exact (emit_Alts_rules _ _ _ _ _ _ _ h2).trans (collectVarsAll_rules _ _ _ _ _ h1)

theorem ruleBody_rules (node : Rule) (is_loop is_repeat1 memoize : Bool) (ty : String)
    (rhs : Rhs) (st : GState) (l : List String) (st' : GState)
    (h : ruleBody node is_loop is_repeat1 memoize ty rhs st = .ok (l, st')) :
    st'.rules = st.rules := by
  unfold ruleBody at h
  rcases h1 : emit_Rhs rhs is_loop (if memoize then some node.name else none) 1 st
      with e | ⟨rhsL, st₁⟩
  · rw [h1] at h
    simp [Except.bind, bind] at h
  · rw [h1] at h
    simp only [Except.bind, bind] at h
    cases h
    exact emit_Rhs_rules _ _ _ _ _ _ _ h1

set_option maxHeartbeats 8000000 in
theorem visit_Rule_rules (node : Rule) (st : GState) (l : List String) (st' : GState)
    (h : visit_Rule node st = .ok (l, st')) : st'.rules = st.rules := by
  unfold visit_Rule at h
  simp only [] at h
  by_cases hlr : node.left_recursive = true
  · rw [if_pos hlr] at h
    rcases h1 : ruleBody node node.is_loop (node.name.startsWith ("_loop1")) (!node.leader)
        (if node.is_loop = true then "asdl_seq *"
         else if optTruthy node.type = true then node.type.getD "" else "void *")
        node.flatten { st with varCounter := st.varCounter + 1 } with e | ⟨body, st₂⟩
    · rw [h1] at h
      simp [Except.bind, bind] at h
    · rw [h1] at h
      simp only [Except.bind, bind] at h
      cases h
      have hr := ruleBody_rules _ _ _ _ _ _ _ _ _ h1
      exact hr
  · rw [if_neg hlr] at h
    rcases h1 : ruleBody node node.is_loop (node.name.startsWith ("_loop1")) (!node.leader)
        (if node.is_loop = true then "asdl_seq *"
         else if optTruthy node.type = true then node.type.getD "" else "void *")
        node.flatten st with e | ⟨body, st₂⟩
    · rw [h1] at h
      simp [Except.bind, bind] at h
    · rw [h1] at h
      simp only [Except.bind, bind] at h
      cases h
      have hr := ruleBody_rules _ _ _ _ _ _ _ _ _ h1
      exact hr

theorem collectTodoItems_rules : ∀ (items : List NamedItem) (st st' : GState),
    collectTodoItems items st = .ok st' → st'.rules = st.rules := by
  intro items
  induction items with
  | nil =>
    intro st st' h
    simp [collectTodoItems] at h
    rw [← h]
  | cons ni rest ih =>
    intro st st' h
    unfold collectTodoItems at h
    rcases h1 : visitItem ni.item st with e | ⟨pr, st₁⟩
    · rw [h1] at h
      simp [Except.bind, bind] at h
    · rw [h1] at h
      simp only [Except.bind, bind] at h
      rw [ih st₁ st' h, visitItem_rules ni.item st pr st₁ h1]

theorem collectTodoAlts_rules : ∀ (alts : List Alt) (st st' : GState),
    collectTodoAlts alts st = .ok st' → st'.rules = st.rules := by
  intro alts
  induction alts with
  | nil =>
    intro st st' h
    simp [collectTodoAlts] at h
    rw [← h]
  | cons a rest ih =>
    intro st st' h
    unfold collectTodoAlts at h
    rcases h1 : collectTodoItems a.items st with e | st₁
    · rw [h1] at h
      simp [Except.bind, bind] at h
    · rw [h1] at h
      simp only [Except.bind, bind] at h
      rw [ih st₁ st' h, collectTodoItems_rules a.items st st₁ h1]

theorem collectTodoNames_rules : ∀ (ns : List String) (st st' : GState),
    collectTodoNames ns st = .ok st' → st'.rules = st.rules := by
  intro ns
  induction ns with
  | nil =>
    intro st st' h
    simp [collectTodoNames] at h
    rw [← h]
  | cons n rest ih =>
    intro st st' h
    unfold collectTodoNames at h
    rcases h1 : findRule st.todo n with _ | r
    · rw [h1] at h
      exact ih st st' h
    · rw [h1] at h
      simp only [] at h
      rcases h2 : collectTodoRule r st with e | st₁
      · rw [h2] at h
        simp [Except.bind, bind] at h
      · rw [h2] at h
        simp only [Except.bind, bind] at h
        exact (ih _ _ h).trans (collectTodoAlts_rules _ _ _ h2)

theorem collect_todo_rules : ∀ (fuel : Nat) (done : List String) (st st' : GState),
    collect_todo fuel done st = .ok st' → st'.rules = st.rules := by
  intro fuel
  induction fuel with
  | zero =>
    intro done st st' h
    unfold collect_todo at h
    simp only [] at h
    split at h
    · cases h
      rfl
    · cases h
  | succ fuel ih =>
    intro done st st' h
    unfold collect_todo at h
    simp only [] at h
    split at h
    · cases h
      rfl
    · rcases h1 : collectTodoNames
          ((st.todo.map (fun r => r.name)).filter
            (fun n => !(done.contains n))) st with e | st₁
      · rw [h1] at h
        simp [Except.bind, bind] at h
      · rw [h1] at h
        simp only [Except.bind, bind] at h
        exact (ih _ _ _ h).trans (collectTodoNames_rules _ _ _ h1)

theorem emit_snapshot_rules : ∀ (rs : List Rule) (st : GState) (l : List String) (st' : GState),
    emit_snapshot rs st = .ok (l, st') → st'.rules = st.rules := by
  intro rs
  induction rs with
  | nil =>
    intro st l st' h
    simp [emit_snapshot] at h
    rw [← h.2]
  | cons r rest ih =>
    intro st l st' h
    unfold emit_snapshot at h
    simp only [] at h
    rcases h1 : visit_Rule r { st with todo := removeByName r.name st.todo } with e | ⟨l₁, st₁⟩
    · rw [h1] at h
      simp [Except.bind, bind] at h
    · rw [h1] at h
      simp only [Except.bind, bind] at h
      rcases h2 : emit_snapshot rest st₁ with e | ⟨l₂, st₂⟩
      · rw [h2] at h
        simp [Except.bind, bind] at h
      · rw [h2] at h
        simp only [Except.bind, bind] at h
        cases h
        have hv := visit_Rule_rules _ _ _ _ h1
        have he := ih _ _ _ h2
        exact he.trans hv

theorem emit_all_rules : ∀ (fuel : Nat) (st : GState) (l : List String) (st' : GState),
    emit_all fuel st = .ok (l, st') → st'.rules = st.rules := by
  intro fuel
  induction fuel with
  | zero =>
    intro st l st' h
    unfold emit_all at h
    split at h
    · cases h
      rfl
    · cases h
  | succ fuel ih =>
    intro st l st' h
    unfold emit_all at h
    split at h
    · cases h
      rfl
    · rcases h1 : emit_snapshot st.todo st with e | ⟨l₁, st₁⟩
      · rw [h1] at h
        simp [Except.bind, bind] at h
      · rw [h1] at h
        simp only [Except.bind, bind] at h
        rcases h2 : emit_all fuel st₁ with e | ⟨l₂, st₂⟩
        · rw [h2] at h
          simp [Except.bind, bind] at h
        · rw [h2] at h
          simp only [Except.bind, bind] at h
          cases h
          exact (ih _ _ _ h2).trans (emit_snapshot_rules _ _ _ _ h1)

/-! ### The analyses preserve the rule names -/

theorem nullStep_names (rules : List Rule) :
    (nullStep rules).map (fun r => r.name) = rules.map (fun r => r.name) := by
  unfold nullStep
  rw [List.map_map]
  rfl

theorem compute_nullables_names (rules : List Rule) :
    (compute_nullables rules).map (fun r => r.name) = rules.map (fun r => r.name) := by
  unfold compute_nullables
  generalize rules.length + 1 = n
  induction n with
  | zero => rfl
  | succ n ih =>
    rw [Function.iterate_succ_apply', nullStep_names]
    exact ih

theorem setLeftRecursive_names (rules : List Rule) (n : String) :
    (setLeftRecursive rules n).map (fun r => r.name) = rules.map (fun r => r.name) := by
  unfold setLeftRecursive
  rw [List.map_map]
  apply List.map_congr_left
  intro r _
  by_cases hx : r.name = n <;> simp [hx]

theorem setLeader_names (rules : List Rule) (n : String) :
    (setLeader rules n).map (fun r => r.name) = rules.map (fun r => r.name) := by
  unfold setLeader
  rw [List.map_map]
  apply List.map_congr_left
  intro r _
  by_cases hx : r.name = n <;> simp [hx]

theorem foldl_setLeftRecursive_names (scc : List String) :
    ∀ (rules : List Rule),
    (scc.foldl setLeftRecursive rules).map (fun r => r.name) = rules.map (fun r => r.name) := by
  induction scc with
  | nil => intro rules; rfl
  | cons n rest ih =>
    intro rules
    rw [List.foldl_cons, ih, setLeftRecursive_names]

theorem processScc_names (g : Graph) (rules : List Rule) (scc : List String)
    (out : List Rule) (h : processScc g rules scc = .ok out) :
    out.map (fun r => r.name) = rules.map (fun r => r.name) := by
  unfold processScc at h
  split at h
  · rcases hm : minString (leadersOf g scc) with _ | leader
    · rw [hm] at h
      cases h
    · rw [hm] at h
      cases h
      rw [setLeader_names, foldl_setLeftRecursive_names]
  · split at h
    · split at h
      · cases h
        rw [setLeader_names, setLeftRecursive_names]
      · cases h
        rfl
    · cases h
      rfl

theorem assignLeftRec_names : ∀ (sccs : List (List String)) (g : Graph) (rules out : List Rule),
    assignLeftRec g sccs rules = .ok out →
    out.map (fun r => r.name) = rules.map (fun r => r.name) := by
  intro sccs
  induction sccs with
  | nil =>
    intro g rules out h
    simp only [assignLeftRec, List.foldlM] at h
    injection h with h2
    rw [← h2]
  | cons scc rest ih =>
    intro g rules out h
    rw [show assignLeftRec g (scc :: rest) rules =
        (do
          let rules₁ ← processScc g rules scc
          assignLeftRec g rest rules₁) from rfl] at h
    rcases h1 : processScc g rules scc with e | rules₁
    · rw [h1] at h
      simp [Except.bind, bind] at h
    · rw [h1] at h
      simp only [Except.bind, bind] at h
      rw [ih g rules₁ out h, processScc_names g rules scc rules₁ h1]

theorem init_gen_names (rules : List Rule) (st : GState) (h : init_gen rules = .ok st) :
    st.rules.map (fun r => r.name) = rules.map (fun r => r.name) := by
  unfold init_gen compute_left_recursives at h
  simp only [] at h
  rcases h1 : assignLeftRec (make_first_graph (compute_nullables rules))
      (sccsOf (make_first_graph (compute_nullables rules))) (compute_nullables rules)
      with e | rules₁
  · rw [h1] at h
    simp [Except.bind, bind] at h
  · rw [h1] at h
    simp only [Except.bind, bind] at h
    cases h
    show rules₁.map (fun r => r.name) = rules.map (fun r => r.name)
    rw [assignLeftRec_names _ _ _ _ h1, compute_nullables_names]

/-- C7 (amended): when the grammar has no rule named `start`, `generate`
raises a missing-key error only at the very end, while computing the entry
shim mode — AFTER the header, the type defines, the forward declarations
and every rule body have already been written to the output; only the
footer is missing.  The claim's "no output is produced" is wrong on the
code. -/
theorem c7_missing_start (rules : List Rule) (filename : String) (fuel : Nat)
    (st st₁ : GState) (body : List String) (st₂ : GState)
    (hstart : ∀ r ∈ rules, r.name ≠ "start")
    (hinit : init_gen rules = .ok st)
    (hct : collect_todo fuel [] st = .ok st₁)
    (hem : emit_all fuel st₁ = .ok (body, st₂)) :
    runCGenerator rules filename fuel =
      { lines := [ind 0 (extensionHeader filename)]
          ++ defineLinesGo 1000 (st₁.todo.map (fun r => r.name)) ++ [""]
          ++ st₁.todo.map fwdDeclLine ++ [""] ++ body,
        error := some "KeyError: start" }
    ∧ (runCGenerator rules filename fuel).lines ≠ [] := by
  have hnames : st₂.rules.map (fun r => r.name) = rules.map (fun r => r.name) := by
    rw [emit_all_rules fuel st₁ body st₂ hem, collect_todo_rules fuel [] st st₁ hct,
        init_gen_names rules st hinit]
  have hfind : findRule st₂.rules "start" = none := by
    unfold findRule
    apply List.find?_eq_none.mpr
    intro r hr
    have : r.name ∈ rules.map (fun r => r.name) := by
      rw [← hnames]
      exact List.mem_map.mpr ⟨r, hr, rfl⟩
    rcases List.mem_map.mp this with ⟨r₀, hr₀, he⟩
    simp only [decide_eq_true_eq]
    rw [← he]
    exact hstart r₀ hr₀
  have hmain : runCGenerator rules filename fuel =
      { lines := [ind 0 (extensionHeader filename)]
          ++ defineLinesGo 1000 (st₁.todo.map (fun r => r.name)) ++ [""]
          ++ st₁.todo.map fwdDeclLine ++ [""] ++ body,
        error := some "KeyError: start" } := by
    unfold runCGenerator
    rw [hinit]
    simp only []
    unfold generateOut
    rw [hct]
    simp only []
    rw [hem]
    simp only []
    rw [hfind]
  refine ⟨hmain, ?_⟩
  rw [hmain]
  simp

/-- Witness for C7: the empty grammar (which certainly lacks `start`)
produces the header, the two blank separator lines, and the missing-key
error. -/
theorem c7_witness :
    (∀ r ∈ ([] : List Rule), r.name ≠ "start")
    ∧ runCGenerator [] "demo.gram" 1 =
      { lines := [ind 0 (extensionHeader "demo.gram")] ++ defineLinesGo 1000 [] ++ [""]
          ++ [] ++ [""] ++ [],
        error := some "KeyError: start" } := by
  refine ⟨by simp, ?_⟩
  have h := c7_missing_start [] "demo.gram" 1 st0 st0 [] st0 (by simp)
    (by with_unfolding_all rfl) (by with_unfolding_all rfl) (by with_unfolding_all rfl)
  exact h.1

theorem altResLines_single (n : String) (lvl : Nat) :
    altResLines none [n] lvl = .ok [ind lvl ("res = " ++ n ++ ";")] := by
  unfold altResLines
  simp [optTruthy]

/-- C4 (amended): a synthesized loop rule's body wraps its single
alternative in an unbounded `while` loop that appends each iteration's
`res` to the `children` buffer and advances the saved `mark` variable each
iteration; after the loop, a `_loop1` rule returns `NULL` when zero
iterations matched while a `_loop0` rule proceeds with an empty sequence;
the children are frozen into an `asdl_seq` and passed to
`insert_memo(p, mark, ...)` — at the CURRENT value of `mark`, i.e. the
position after the last successful iteration (the starting mark only when
zero iterations matched) — and returned. -/
theorem c4_loop_rule_emission (node : Rule) (item : Item) (nmv : String)
    (st st₁ st₂ : GState) (vars : List (Option String × Option String)) (condL : List String)
    (h0 : node.name.startsWith ("_loop") = true)
    (h1 : node.left_recursive = false)
    (h2 : node.leader = false)
    (h3 : node.rhs = Rhs.mk [Alt.mk [NamedItem.mk none item] none])
    (hcv : collectVarsAll [Alt.mk [NamedItem.mk none item] none] [] st = .ok (vars, st₁))
    (hitems : emit_Alt_items [NamedItem.mk none item] true [] 2 st₁ = .ok (condL, [nmv], st₂)) :
    visit_Rule node st = .ok (
      [ind 0 ("// " ++ renderRule node),
       ind 0 ("static " ++ "asdl_seq *"),
       ind 0 (node.name ++ "_rule(Parser *p)"),
       ind 0 "\x7b",
       ind 1 "void *res = NULL;",
       ind 1 ("if (is_memoized(p, " ++ node.name ++ "_type, &res))"),
       ind 2 "return res;",
       ind 1 "int mark = p->mark;",
       ind 1 "void **children = PyMem_Malloc(0);"]
      ++ oomReturn 1 "!children" "NULL" "Parser out of memory"
      ++ [ind 1 "ssize_t n = 0;"]
      ++ declLines 1 vars
      ++ ([ind 1 ("// " ++ renderAlt (Alt.mk [NamedItem.mk none item] none)),
           ind 1 "while ("]
          ++ condL
          ++ [ind 1 ") \x7b",
              ind 2 ("res = " ++ nmv ++ ";"),
              ind 2 "children = PyMem_Realloc(children, (n+1)*sizeof(void *));"]
          ++ oomReturn 2 "!children" "NULL" ("realloc " ++ node.name)
          ++ [ind 2 "children[n++] = res;",
              ind 2 "mark = p->mark;",
              ind 1 "\x7d",
              ind 1 "p->mark = mark;"]
          ++ (if "cut_var" ∈ [nmv] then [ind 1 "if (cut_var) return NULL;"] else []))
      ++ ((if node.name.startsWith ("_loop1") then
            [ind 1 "if (n == 0) \x7b", ind 2 "PyMem_Free(children);",
             ind 2 "return NULL;", ind 1 "\x7d"]
          else [])
          ++ [ind 1 "asdl_seq *seq = _Py_asdl_seq_new(n, p->arena);"]
          ++ oomReturn 1 "!seq" "NULL" ("asdl_seq_new " ++ node.name)
          ++ [ind 1 "for (int i = 0; i < n; i++) asdl_seq_SET(seq, i, children[i]);",
              ind 1 "PyMem_Free(children);"]
          ++ (if strTruthy node.name then
                [ind 1 ("insert_memo(p, mark, " ++ node.name ++ "_type, seq);")]
              else [])
          ++ [ind 1 "return seq;"])
      ++ [ind 0 "\x7d"], st₂) := by
  have hloop : node.is_loop = true := h0
  have halt : emit_Alt (Alt.mk [NamedItem.mk none item] none) true (some node.name) 1 st₁ =
      .ok ([ind 1 ("// " ++ renderAlt (Alt.mk [NamedItem.mk none item] none)),
            ind 1 "while ("]
           ++ condL
           ++ [ind 1 ") \x7b",
               ind 2 ("res = " ++ nmv ++ ";"),
               ind 2 "children = PyMem_Realloc(children, (n+1)*sizeof(void *));"]
           ++ oomReturn 2 "!children" "NULL" ("realloc " ++ node.name)
           ++ [ind 2 "children[n++] = res;",
               ind 2 "mark = p->mark;",
               ind 1 "\x7d",
               ind 1 "p->mark = mark;"]
           ++ (if "cut_var" ∈ [nmv] then [ind 1 "if (cut_var) return NULL;"] else []), st₂) := by
    unfold emit_Alt
    rw [show (Alt.mk [NamedItem.mk none item] none).items = [NamedItem.mk none item] from rfl,
        hitems]
    simp only [Except.bind, bind]
    rw [show (Alt.mk [NamedItem.mk none item] none).action = none from rfl, altResLines_single]
    simp [pyOptStr, oomReturn]
  have halts : emit_Alts [Alt.mk [NamedItem.mk none item] none] true (some node.name) 1 st₁ =
      .ok (([ind 1 ("// " ++ renderAlt (Alt.mk [NamedItem.mk none item] none)),
             ind 1 "while ("]
            ++ condL
            ++ [ind 1 ") \x7b",
                ind 2 ("res = " ++ nmv ++ ";"),
                ind 2 "children = PyMem_Realloc(children, (n+1)*sizeof(void *));"]
            ++ oomReturn 2 "!children" "NULL" ("realloc " ++ node.name)
            ++ [ind 2 "children[n++] = res;",
                ind 2 "mark = p->mark;",
                ind 1 "\x7d",
                ind 1 "p->mark = mark;"]
            ++ (if "cut_var" ∈ [nmv] then [ind 1 "if (cut_var) return NULL;"] else [])) ++ [],
           st₂) := by
    unfold emit_Alts
    rw [halt]
    with_unfolding_all rfl
  rw [List.append_nil] at halts
  have hrhs : emit_Rhs (Rhs.mk [Alt.mk [NamedItem.mk none item] none]) true (some node.name)
      1 st =
      .ok (declLines 1 vars
           ++ ([ind 1 ("// " ++ renderAlt (Alt.mk [NamedItem.mk none item] none)),
                ind 1 "while ("]
               ++ condL
               ++ [ind 1 ") \x7b",
                   ind 2 ("res = " ++ nmv ++ ";"),
                   ind 2 "children = PyMem_Realloc(children, (n+1)*sizeof(void *));"]
               ++ oomReturn 2 "!children" "NULL" ("realloc " ++ node.name)
               ++ [ind 2 "children[n++] = res;",
                   ind 2 "mark = p->mark;",
                   ind 1 "\x7d",
                   ind 1 "p->mark = mark;"]
               ++ (if "cut_var" ∈ [nmv] then [ind 1 "if (cut_var) return NULL;"] else [])),
           st₂) := by
    unfold emit_Rhs
    rw [if_neg (by simp [Rhs.alts])]
    rw [show (Rhs.mk [Alt.mk [NamedItem.mk none item] none]).alts =
        [Alt.mk [NamedItem.mk none item] none] from rfl]
    rw [hcv]
    simp only [Except.bind, bind]
    rw [halts]
  have hfl : node.flatten = Rhs.mk [Alt.mk [NamedItem.mk none item] none] := h3
  unfold visit_Rule
  rw [hloop, h1, h2, hfl]
  simp only [Bool.false_eq_true, if_false, Bool.not_false, eq_self_iff_true, if_true]
  unfold ruleBody
  simp only [eq_self_iff_true, if_true]
  rw [hrhs]
  simp [Except.bind, bind, oomReturn, List.append_assoc]

/-- Counterexample for C4: in the loop-rule semantics transcribed from the
emitted code, two successful iterations from starting mark 0 (reaching
marks 1 then 2, collecting results 10 and 20) insert the memo entry at mark
2, not at the starting mark 0 — the claim's "memoized at the starting
mark" is wrong on the code. -/
theorem c4_counterexample :
    (loopRuleSem false c4Step 10 0).seq = some [10, 20]
    ∧ (loopRuleSem false c4Step 10 0).memoInsertedAt = some 2
    ∧ (2 : Nat) ≠ 0 := by
  refine ⟨?_, ?_, by decide⟩ <;> with_unfolding_all rfl

/-- Witness for C4 at the loop rule `_loop0_1: NAME`. -/
theorem c4_witness :
    loopRuleW.name.startsWith ("_loop") = true
    ∧ visit_Rule loopRuleW st0 = .ok (
      [ind 0 ("// " ++ renderRule loopRuleW),
       ind 0 ("static " ++ "asdl_seq *"),
       ind 0 (loopRuleW.name ++ "_rule(Parser *p)"),
       ind 0 "\x7b",
       ind 1 "void *res = NULL;",
       ind 1 ("if (is_memoized(p, " ++ loopRuleW.name ++ "_type, &res))"),
       ind 2 "return res;",
       ind 1 "int mark = p->mark;",
       ind 1 "void **children = PyMem_Malloc(0);"]
      ++ oomReturn 1 "!children" "NULL" "Parser out of memory"
      ++ [ind 1 "ssize_t n = 0;"]
      ++ declLines 1 [(some "name_var", none)]
      ++ ([ind 1 ("// " ++ renderAlt (Alt.mk [NamedItem.mk none (Item.nameLeaf "NAME")] none)),
           ind 1 "while ("]
          ++ ["        (name_var = name_token(p))"]
          ++ [ind 1 ") \x7b",
              ind 2 ("res = " ++ "name_var" ++ ";"),
              ind 2 "children = PyMem_Realloc(children, (n+1)*sizeof(void *));"]
          ++ oomReturn 2 "!children" "NULL" ("realloc " ++ loopRuleW.name)
          ++ [ind 2 "children[n++] = res;",
              ind 2 "mark = p->mark;",
              ind 1 "\x7d",
              ind 1 "p->mark = mark;"]
          ++ (if "cut_var" ∈ ["name_var"] then [ind 1 "if (cut_var) return NULL;"] else []))
      ++ ((if loopRuleW.name.startsWith ("_loop1") then
            [ind 1 "if (n == 0) \x7b", ind 2 "PyMem_Free(children);",
             ind 2 "return NULL;", ind 1 "\x7d"]
          else [])
          ++ [ind 1 "asdl_seq *seq = _Py_asdl_seq_new(n, p->arena);"]
          ++ oomReturn 1 "!seq" "NULL" ("asdl_seq_new " ++ loopRuleW.name)
          ++ [ind 1 "for (int i = 0; i < n; i++) asdl_seq_SET(seq, i, children[i]);",
              ind 1 "PyMem_Free(children);"]
          ++ (if strTruthy loopRuleW.name then
                [ind 1 ("insert_memo(p, mark, " ++ loopRuleW.name ++ "_type, seq);")]
              else [])
          ++ [ind 1 "return seq;"])
      ++ [ind 0 "\x7d"], st0) := by
  refine ⟨by with_unfolding_all rfl, ?_⟩
  exact c4_loop_rule_emission loopRuleW (Item.nameLeaf "NAME") "name_var" st0 st0 st0
    [(some "name_var", none)] ["        (name_var = name_token(p))"]
    (by with_unfolding_all rfl) rfl rfl rfl (by with_unfolding_all rfl)
    (by with_unfolding_all rfl)

/-- Counterexample for C7 as stated: on a grammar with no `start` rule the
pass does fail with the missing-key error, but output IS produced — the
header and the two separator blank lines are already written when the
lookup fails. -/
theorem c7_counterexample :
    (∀ r ∈ ([] : List Rule), r.name ≠ "start")
    ∧ runCGenerator [] "demo.gram" 1 =
      { lines := [ind 0 (extensionHeader "demo.gram"), "", ""],
        error := some "KeyError: start" }
    ∧ [ind 0 (extensionHeader "demo.gram"), "", ""] ≠ ([] : List String) :=
  ⟨by simp, by with_unfolding_all rfl, by simp⟩

/-! ### Helper facts for the SCC flag assignment (C2, C3) -/

theorem foldl_min_mem_le : ∀ (xs : List String) (a : String),
    ((xs.foldl (fun a b => if b < a then b else a) a) = a
      ∨ (xs.foldl (fun a b => if b < a then b else a) a) ∈ xs)
    ∧ (xs.foldl (fun a b => if b < a then b else a) a) ≤ a
    ∧ ∀ m ∈ xs, (xs.foldl (fun a b => if b < a then b else a) a) ≤ m := by
  intro xs
  induction xs with
  | nil =>
    intro a
    exact ⟨Or.inl rfl, le_refl a, by simp⟩
  | cons b bs ih =>
    intro a
    rw [List.foldl_cons]
    by_cases hb : b < a
    · rw [if_pos hb]
      rcases ih b with ⟨hmem, hle, hall⟩
      refine ⟨?_, le_trans hle (le_of_lt hb), ?_⟩
      · rcases hmem with he | hm
        · exact Or.inr (by rw [he]; exact List.mem_cons_self b bs)
        · exact Or.inr (List.mem_cons_of_mem b hm)
      · intro m hm
        rcases List.mem_cons.mp hm with he | hmm
        · rw [he]
          exact hle
        · exact hall m hmm
    · rw [if_neg hb]
      rcases ih a with ⟨hmem, hle, hall⟩
      refine ⟨?_, hle, ?_⟩
      · rcases hmem with he | hm
        · exact Or.inl he
        · exact Or.inr (List.mem_cons_of_mem b hm)
      · intro m hm
        rcases List.mem_cons.mp hm with he | hmm
        · rw [he]
          exact le_trans hle (le_of_not_lt hb)
        · exact hall m hmm

/-- Python `min` returns a member that is `≤` every member. -/
theorem minString_spec (l : List String) (x : String) (h : minString l = some x) :
    x ∈ l ∧ ∀ m ∈ l, x ≤ m := by
  cases l with
  | nil => cases h
  | cons a xs =>
    simp only [minString] at h
    injection h with h2
    rcases foldl_min_mem_le xs a with ⟨hmem, hle, hall⟩
    subst h2
    constructor
    · rcases hmem with he | hm
      · rw [he]
        exact List.mem_cons_self a xs
      · exact List.mem_cons_of_mem a hm
    · intro m hm
      rcases List.mem_cons.mp hm with he | hmm
      · rw [he]
        exact hle
      · exact hall m hmm

/-- Folding `setLeftRecursive` over the SCC members marks exactly the rules
whose name is in the SCC. -/
theorem foldl_setLeftRecursive_map : ∀ (scc : List String) (rules : List Rule),
    scc.foldl setLeftRecursive rules
      = rules.map (fun r =>
          if r.name ∈ scc then { r with left_recursive := true } else r) := by
  intro scc
  induction scc with
  | nil =>
    intro rules
    simp
  | cons n rest ih =>
    intro rules
    rw [List.foldl_cons, ih]
    unfold setLeftRecursive
    rw [List.map_map]
    apply List.map_congr_left
    intro r _
    by_cases h1 : r.name = n
    · by_cases h2 : r.name ∈ rest <;>
        simp [Function.comp, h1, h2, List.mem_cons]
    · by_cases h2 : r.name ∈ rest <;>
        simp [Function.comp, h1, h2, List.mem_cons]

/-- C2: the flag assignment of `compute_left_recursives` per SCC
(parser_generator.py lines 179-199, the body `processScc` of the fold):
a component of size > 1 marks every member rule left-recursive and crowns
exactly one leader — the lexicographically smallest member occurring in
every simple cycle of the component; a singleton with a self-edge sets
both flags on its rule; a singleton without one changes nothing. -/
theorem c2_scc_flags (g : Graph) (rules : List Rule) (scc : List String) (out : List Rule)
    (h : processScc g rules scc = .ok out) :
    (1 < scc.length →
      ∃ leader, minString (leadersOf g scc) = some leader
        ∧ leader ∈ scc
        ∧ (∀ c ∈ simpleCyclesIn g scc, leader ∈ c)
        ∧ (∀ m ∈ scc, (∀ c ∈ simpleCyclesIn g scc, m ∈ c) → leader ≤ m)
        ∧ out = rules.map (fun r =>
            if r.name = leader then { r with left_recursive := true, leader := true }
            else if r.name ∈ scc then { r with left_recursive := true }
            else r))
    ∧ (∀ nm, scc = [nm] → edgeB g nm nm = true →
        out = rules.map (fun r =>
          if r.name = nm then { r with left_recursive := true, leader := true } else r))
    ∧ (∀ nm, scc = [nm] → edgeB g nm nm = false → out = rules) := by
  unfold processScc at h
  by_cases hlen : 1 < scc.length
  · rw [if_pos hlen] at h
    simp only [] at h
    rcases hmin : minString (leadersOf g scc) with _ | leader
    · rw [hmin] at h
      cases h
    · rw [hmin] at h
      cases h
      rcases minString_spec _ _ hmin with ⟨hmem, hminim⟩
      rcases List.mem_filter.mp hmem with ⟨hsc, hallc⟩
      refine ⟨fun _ => ⟨leader, rfl, hsc, ?_, ?_, ?_⟩, ?_, ?_⟩
      · intro c hc
        exact of_decide_eq_true (List.all_eq_true.mp hallc c hc)
      · intro m hm hmc
        exact hminim m (List.mem_filter.mpr
          ⟨hm, List.all_eq_true.mpr (fun c hc => decide_eq_true (hmc c hc))⟩)
      · rw [foldl_setLeftRecursive_map]
        unfold setLeader
        rw [List.map_map]
        apply List.map_congr_left
        intro r _
        by_cases h1 : r.name = leader
        · simp [Function.comp, h1, hsc]
        · by_cases h2 : r.name ∈ scc <;>
            simp [Function.comp, h1, h2]
      · intro nm he
        rw [he] at hlen
        simp at hlen
      · intro nm he
        rw [he] at hlen
        simp at hlen
  · rw [if_neg hlen] at h
    rcases scc with _ | ⟨nm, rest⟩
    · simp only [] at h
      cases h
      refine ⟨fun h1 => absurd h1 hlen, ?_, ?_⟩ <;>
        · intro nm he
          cases he
    · rcases rest with _ | ⟨x, xs⟩
      · simp only [] at h
        refine ⟨fun h1 => absurd h1 hlen, ?_, ?_⟩
        · intro nm' he htrue
          injection he with he1 he2
          subst he1
          rw [if_pos htrue] at h
          cases h
          unfold setLeftRecursive setLeader
          rw [List.map_map]
          apply List.map_congr_left
          intro r _
          by_cases h1 : r.name = nm <;>
            simp [Function.comp, h1]
        · intro nm' he hfalse
          injection he with he1 he2
          subst he1
          rw [if_neg (by rw [hfalse]; exact Bool.false_ne_true)] at h
          cases h
          rfl
      · exact absurd (by simp) hlen

/-- Witness for C2 on the two-rule cycle `a ↔ b`: both rules become
left-recursive and `a` (the smaller name, present in every cycle) becomes
the unique leader. -/
theorem c2_witness :
    (1 < (["a", "b"] : List String).length →
      ∃ leader,
        minString (leadersOf [("a", ["b"]), ("b", ["a"])] ["a", "b"]) = some leader
        ∧ leader ∈ (["a", "b"] : List String)
        ∧ (∀ c ∈ simpleCyclesIn [("a", ["b"]), ("b", ["a"])] ["a", "b"], leader ∈ c)
        ∧ (∀ m ∈ (["a", "b"] : List String),
            (∀ c ∈ simpleCyclesIn [("a", ["b"]), ("b", ["a"])] ["a", "b"], m ∈ c) → leader ≤ m)
        ∧ ([{ name := "a", type := none, rhs := Rhs.mk [], left_recursive := true, leader := true },
            { name := "b", type := none, rhs := Rhs.mk [], left_recursive := true }] : List Rule)
          = ([{ name := "a", type := none, rhs := Rhs.mk [] },
              { name := "b", type := none, rhs := Rhs.mk [] }] : List Rule).map (fun r =>
            if r.name = leader then { r with left_recursive := true, leader := true }
            else if r.name ∈ (["a", "b"] : List String) then { r with left_recursive := true }
            else r))
    ∧ (∀ nm, (["a", "b"] : List String) = [nm] →
        edgeB [("a", ["b"]), ("b", ["a"])] nm nm = true →
        ([{ name := "a", type := none, rhs := Rhs.mk [], left_recursive := true, leader := true },
          { name := "b", type := none, rhs := Rhs.mk [], left_recursive := true }] : List Rule)
          = ([{ name := "a", type := none, rhs := Rhs.mk [] },
              { name := "b", type := none, rhs := Rhs.mk [] }] : List Rule).map (fun r =>
            if r.name = nm then { r with left_recursive := true, leader := true } else r))
    ∧ (∀ nm, (["a", "b"] : List String) = [nm] →
        edgeB [("a", ["b"]), ("b", ["a"])] nm nm = false →
        ([{ name := "a", type := none, rhs := Rhs.mk [], left_recursive := true, leader := true },
          { name := "b", type := none, rhs := Rhs.mk [], left_recursive := true }] : List Rule)
          = ([{ name := "a", type := none, rhs := Rhs.mk [] },
              { name := "b", type := none, rhs := Rhs.mk [] }] : List Rule)) := by
  have h := c2_scc_flags [("a", ["b"]), ("b", ["a"])]
    [{ name := "a", type := none, rhs := Rhs.mk [] },
     { name := "b", type := none, rhs := Rhs.mk [] }]
    ["a", "b"]
    [{ name := "a", type := none, rhs := Rhs.mk [], left_recursive := true, leader := true },
     { name := "b", type := none, rhs := Rhs.mk [], left_recursive := true }]
    (by with_unfolding_all rfl)
  exact h

/-- A component that is not of the failing shape is processed without
error. -/
theorem processScc_ok_of_not_bad (g : Graph) (rules : List Rule) (scc : List String)
    (hnb : ¬(1 < scc.length ∧ leadersOf g scc = [])) :
    ∃ out, processScc g rules scc = .ok out := by
  unfold processScc
  by_cases hlen : 1 < scc.length
  · rcases hL : leadersOf g scc with _ | ⟨x, xs⟩
    · exact absurd ⟨hlen, hL⟩ hnb
    · rw [if_pos hlen]
      exact ⟨_, rfl⟩
  · rw [if_neg hlen]
    rcases scc with _ | ⟨nm, rest⟩
    · exact ⟨_, rfl⟩
    · rcases rest with _ | ⟨y, ys⟩
      · by_cases he : edgeB g nm nm = true
        · exact ⟨setLeader (setLeftRecursive rules nm) nm, by simp only []; rw [if_pos he]⟩
        · exact ⟨rules, by simp only []; rw [if_neg he]⟩
      · exact ⟨_, rfl⟩

/-- If some component in the fold's list has size > 1 and no leadership
candidate, the whole fold fails, and the error message names such a
component. -/
theorem assignLeftRec_error_of_bad : ∀ (sccs : List (List String)) (g : Graph)
    (rules : List Rule),
    (∃ scc ∈ sccs, 1 < scc.length ∧ leadersOf g scc = []) →
    ∃ scc', scc' ∈ sccs ∧ 1 < scc'.length ∧ leadersOf g scc' = []
      ∧ assignLeftRec g sccs rules = .error (noLeaderMessage scc') := by
  intro sccs
  induction sccs with
  | nil =>
    intro g rules h
    rcases h with ⟨scc, hm, _⟩
    cases hm
  | cons scc rest ih =>
    intro g rules h
    by_cases hbad : 1 < scc.length ∧ leadersOf g scc = []
    · refine ⟨scc, List.mem_cons_self scc rest, hbad.1, hbad.2, ?_⟩
      have hp : processScc g rules scc = .error (noLeaderMessage scc) := by
        unfold processScc
        rw [if_pos hbad.1]
        simp only []
        rw [hbad.2]
        rfl
      rw [show assignLeftRec g (scc :: rest) rules =
          (do
            let rules₁ ← processScc g rules scc
            assignLeftRec g rest rules₁) from rfl]
      rw [hp]
      rfl
    · rcases processScc_ok_of_not_bad g rules scc hbad with ⟨out, hok⟩
      have h2 : ∃ s ∈ rest, 1 < s.length ∧ leadersOf g s = [] := by
        rcases h with ⟨s, hs, hb⟩
        rcases List.mem_cons.mp hs with he | hm
        · exact absurd (he ▸ hb) hbad
        · exact ⟨s, hm, hb⟩
      rcases ih g out h2 with ⟨sc, hm2, hlen2, hL2, heq⟩
      refine ⟨sc, List.mem_cons_of_mem scc hm2, hlen2, hL2, ?_⟩
      rw [show assignLeftRec g (scc :: rest) rules =
          (do
            let rules₁ ← processScc g rules scc
            assignLeftRec g rest rules₁) from rfl]
      rw [hok]
      simp only [Except.bind, bind]
      exact heq

/-- C3: if some size > 1 strongly connected component of the first-set
graph has no member occurring in every one of its simple cycles, the whole
generation pass fails with the `ValueError` naming such a component
(parser_generator.py lines 190-191), and — because the analysis runs in the
generator's constructor, before `generate` prints anything — no output text
is produced at all. -/
theorem c3_no_leader_scc (rules : List Rule) (filename : String) (fuel : Nat)
    (hbad : ∃ scc ∈ sccsOf (make_first_graph (compute_nullables rules)),
      1 < scc.length ∧ leadersOf (make_first_graph (compute_nullables rules)) scc = []) :
    ∃ scc', scc' ∈ sccsOf (make_first_graph (compute_nullables rules))
      ∧ 1 < scc'.length
      ∧ leadersOf (make_first_graph (compute_nullables rules)) scc' = []
      ∧ runCGenerator rules filename fuel =
          { lines := [], error := some (noLeaderMessage scc') } := by
  rcases assignLeftRec_error_of_bad
      (sccsOf (make_first_graph (compute_nullables rules)))
      (make_first_graph (compute_nullables rules))
      (compute_nullables rules) hbad with ⟨scc', hm, hlen, hL, heq⟩
  refine ⟨scc', hm, hlen, hL, ?_⟩
  have hinit : init_gen rules = .error (noLeaderMessage scc') := by
    unfold init_gen compute_left_recursives
    simp only []
    rw [heq]
    rfl
  unfold runCGenerator
  rw [hinit]

/-- Witness for C3: the four-rule grammar `c3Rules` whose single SCC
`{a, b, c, d}` has disjoint cycles `[a, b]` and `[c, d]` — the pass fails
with the SCC-naming message and writes nothing. -/
theorem c3_witness :
    (∃ scc ∈ sccsOf (make_first_graph (compute_nullables c3Rules)),
      1 < scc.length ∧ leadersOf (make_first_graph (compute_nullables c3Rules)) scc = [])
    ∧ ∃ scc', scc' ∈ sccsOf (make_first_graph (compute_nullables c3Rules))
        ∧ 1 < scc'.length
        ∧ leadersOf (make_first_graph (compute_nullables c3Rules)) scc' = []
        ∧ runCGenerator c3Rules "demo.gram" 9 =
            { lines := [], error := some (noLeaderMessage scc') } := by
  have hs : sccsOf (make_first_graph (compute_nullables c3Rules)) = [["a", "b", "c", "d"]] := by
    with_unfolding_all rfl
  have hL : leadersOf (make_first_graph (compute_nullables c3Rules)) ["a", "b", "c", "d"]
      = [] := by
    with_unfolding_all rfl
  have hbad : ∃ scc ∈ sccsOf (make_first_graph (compute_nullables c3Rules)),
      1 < scc.length ∧ leadersOf (make_first_graph (compute_nullables c3Rules)) scc = [] := by
    refine ⟨["a", "b", "c", "d"], ?_, by decide, hL⟩
    rw [hs]
    exact List.mem_singleton.mpr rfl
  exact ⟨hbad, c3_no_leader_scc c3Rules "demo.gram" 9 hbad⟩

/-- Witness for C1 at a directly left-recursive leader rule. -/
theorem c1_witness :
    exprRule.left_recursive = true ∧ exprRule.leader = true
    ∧ visit_Rule exprRule st0 = leaderEmission exprRule st0 :=
  ⟨rfl, rfl, c1_leader_seed_growing exprRule st0 rfl rfl⟩

end Pegen
